import Mathlib

/-!
# Verification of the CodeCast playback/queue state machine

Shallow embedding of `src/codecast/src/store/playerStore.ts` (the active
zustand player store) together with the `ended` listener of
`src/codecast/src/services/audioService.ts`, and proofs of the spec's
claims about them.

Modelling conventions:
* JS `number` values are modelled as `ℚ` (times, volumes, rates) or `ℤ`
  (queue indices); all numbers appearing in the store are integral or
  small decimals, far from any floating-point edge case.
* `null`/`undefined` are modelled with `Option`.
* The playlist is a `List (Option PlayerEpisode)`: a JS array slot can
  hold `undefined` (written `none`), which `Array.prototype.splice` can
  introduce when `moveInPlaylist` is called with an out-of-range
  `fromIndex`.
* Calls to the audio engine and to `localStorage` are collected in a
  list of `Effect`s returned next to the new state.
* `localStorage.setItem` may throw; the store functions that persist are
  modelled with an extra `storageOk : Bool` parameter and a `Bool` result
  telling whether an exception escaped the function (the store has no
  try/catch around writes).
-/

namespace Codecast

/-- An episode as fetched from the catalog (`src/types`): episode number,
title, and the media file URI.  A missing/empty `file` is modelled by the
empty string (JS falsiness). -/
structure Episode where
  episode : ℤ
  title : String
  description : String
  file : String
  deriving DecidableEq, Repr

/-- Type `PlayerEpisode` from `playerStore.ts`: an episode together with its
show/season context. -/
structure PlayerEpisode where
  showId : String
  showTitle : String
  seasonNumber : ℤ
  seasonTitle : String
  episode : Episode
  deriving DecidableEq, Repr

/-- The episode identity triple `(showId, seasonNumber, episodeNumber)`. -/
def identOf (e : PlayerEpisode) : String × ℤ × ℤ :=
  (e.showId, e.seasonNumber, e.episode.episode)

/-- Function `getEpisodeKey` from `playerStore.ts`:
`` `${showId}_s${seasonNumber}_e${episodeNumber}` ``. -/
def getEpisodeKey (showId : String) (seasonNumber episodeNumber : ℤ) : String :=
  showId ++ "_s" ++ toString seasonNumber ++ "_e" ++ toString episodeNumber

/-- A queue slot: `some e` is an ordinary entry, `none` is a JS
`undefined` slot (only ever produced by a corrupting `splice`). -/
abbrev Slot := Option PlayerEpisode

/-- The identity test used by `playEpisode`/`addToPlaylist`:
`item.showId === showId && item.seasonNumber === seasonNumber &&
item.episode.episode === episode.episode`.  On an `undefined` slot the JS
property access would throw; all states handled by the theorems below
have defined slots only, so the `none` branch is never exercised. -/
def slotMatches (showId : String) (seasonNumber episodeNumber : ℤ) : Slot → Bool
  | some item =>
      item.showId = showId ∧ item.seasonNumber = seasonNumber ∧
        item.episode.episode = episodeNumber
  | none => false

/-! ## JS array primitives -/

/-- JS `arr[i]` for a possibly negative `i` (negative or too-large reads
give `undefined`). -/
def jsGet (l : List α) (i : ℤ) : Option α :=
  if i < 0 then none else l[i.toNat]?

/-- The start-index clamping performed by `Array.prototype.splice`:
negative indices count from the end, and everything is clamped into
`[0, length]`. -/
def spliceStart (len : ℕ) (i : ℤ) : ℕ :=
  if i < 0 then (max ((len : ℤ) + i) 0).toNat else min i.toNat len

/-- JS `arr.splice(i, 1)`: the remaining list and the removed element
(`none` when the clamped start is past the end). -/
def spliceRemoveOne (l : List α) (i : ℤ) : List α × Option α :=
  let s := spliceStart l.length i
  (l.take s ++ l.drop (s + 1), l[s]?)

/-- JS `arr.splice(i, 0, x)`: insert `x` at the clamped index. -/
def spliceInsert (l : List α) (i : ℤ) (x : α) : List α :=
  let s := spliceStart l.length i
  l.take s ++ [x] ++ l.drop s

/-- JS `arr.filter((_, idx) => idx !== i)` — keep the elements whose
position differs from `i`. -/
def filterOutIndex (l : List α) (i : ℤ) : List α :=
  (l.enum.filter (fun p => ((p.1 : ℤ) ≠ i : Bool))).map (·.2)

/-- JS `arr.findIndex(pred)`: the JS result, `-1` when nothing matches. -/
def jsFindIndex (p : α → Bool) (l : List α) : ℤ :=
  match l.findIdx? p with
  | some n => (n : ℤ)
  | none => -1

/-! ## Player state and effects -/

/-- Imperative calls the store makes on its collaborators: the audio
engine (`audioService`) and `localStorage`. -/
inductive Effect where
  | load (uri : String) (start : ℚ) (autoplay : Bool)
  | seek (t : ℚ)
  | engineVolume (v : ℚ)
  | engineRate (r : ℚ)
  | write (key : String)
  deriving DecidableEq, Repr

/-- The zustand `PlayerState` of `playerStore.ts`.  `isMuted` is a number
in the source (it stores the pre-mute volume while muted, `0` when not
muted).  `completedEpisodes` and `episodeProgress` are the two persisted
maps, keyed by `getEpisodeKey`. -/
structure PlayerState where
  isPlaying : Bool
  currentEpisode : Option PlayerEpisode
  currentTime : ℚ
  duration : ℚ
  volume : ℚ
  isMuted : ℚ
  playbackRate : ℚ
  playlist : List Slot
  currentEpisodeIndex : Option ℤ
  completedEpisodes : String → Bool
  episodeProgress : String → Option ℚ
  sleepTimer : Option ℚ

/-- The store's initial state.  `volume`, `playbackRate`,
`completedEpisodes` and `episodeProgress` come from `loadSavedState`
(whatever `localStorage` holds, defaults `0.8` / `1.0` / empty maps), so
they are parameters here; every other field starts as in the source. -/
def initState (volume playbackRate : ℚ) (completedEpisodes : String → Bool)
    (episodeProgress : String → Option ℚ) : PlayerState where
  isPlaying := false
  currentEpisode := none
  currentTime := 0
  duration := 0
  volume := volume
  isMuted := 0
  playbackRate := playbackRate
  playlist := []
  currentEpisodeIndex := none
  completedEpisodes := completedEpisodes
  episodeProgress := episodeProgress
  sleepTimer := none

/-- Call `audioService.loadEpisode(item.episode.file, start, true)` guarded by
`if (item.episode.file)`.  A JS `undefined` item would throw before
reaching the load; that crash is outside this model (no theorem below
evaluates the operations on a queue holding `undefined`). -/
def loadIfFile (item : Option PlayerEpisode) (start : ℚ) : List Effect :=
  match item with
  | some it => if it.episode.file ≠ "" then [Effect.load it.episode.file start true] else []
  | none => []

/-! ## Store operations (`playerStore.ts`) -/

/-- Action `togglePlayPause`. -/
def togglePlayPause (s : PlayerState) : PlayerState :=
  if ¬s.isPlaying ∧ s.currentEpisode = none ∧ 0 < s.playlist.length then
    { s with currentEpisode := (jsGet s.playlist 0).join,
             currentEpisodeIndex := some 0, isPlaying := true }
  else
    { s with isPlaying := ¬s.isPlaying }

/-- Action `getEpisodeProgress`.  The source returns
`state.episodeProgress[key] || null`: a stored `0` is falsy and becomes
`null`. -/
def getEpisodeProgress (showId : String) (seasonNumber episodeNumber : ℤ)
    (s : PlayerState) : Option ℚ :=
  match s.episodeProgress (getEpisodeKey showId seasonNumber episodeNumber) with
  | some v => if v = 0 then none else some v
  | none => none

/-- Action `isCompleted`. -/
def isCompleted (showId : String) (seasonNumber episodeNumber : ℤ)
    (s : PlayerState) : Bool :=
  s.completedEpisodes (getEpisodeKey showId seasonNumber episodeNumber)

/-- Action `playEpisode`.  Deduplicates by identity via `findIndex`, resumes
from saved progress when positive, and loads the media with autoplay
(when the episode has a file URI). -/
def playEpisode (showId showTitle : String) (seasonNumber : ℤ) (seasonTitle : String)
    (ep : Episode) (s : PlayerState) : PlayerState × List Effect :=
  let episodeItem : PlayerEpisode :=
    ⟨showId, showTitle, seasonNumber, seasonTitle, ep⟩
  let existingIndex := jsFindIndex (slotMatches showId seasonNumber ep.episode) s.playlist
  let appended := s.playlist ++ [some episodeItem]
  let newPlaylist := if 0 ≤ existingIndex then s.playlist else appended
  let newIndex := if 0 ≤ existingIndex then existingIndex else (appended.length : ℤ) - 1
  let savedProgress := getEpisodeProgress showId seasonNumber ep.episode s
  let startTime :=
    match savedProgress with
    | some p => if 0 < p then p else 0
    | none => 0
  ({ s with currentEpisode := some episodeItem,
            currentEpisodeIndex := some newIndex,
            playlist := newPlaylist,
            isPlaying := true,
            currentTime := startTime },
   if ep.file ≠ "" then [Effect.load ep.file startTime true] else [])

/-- Action `addToPlaylist`.  Silently drops an episode whose identity is already
queued; when nothing is currently playing the new entry also becomes the
current episode at index `0`. -/
def addToPlaylist (showId showTitle : String) (seasonNumber : ℤ) (seasonTitle : String)
    (ep : Episode) (s : PlayerState) : PlayerState :=
  let newItem : PlayerEpisode := ⟨showId, showTitle, seasonNumber, seasonTitle, ep⟩
  let isAlreadyInPlaylist := s.playlist.any (slotMatches showId seasonNumber ep.episode)
  if isAlreadyInPlaylist then s
  else
    let newPlaylist := s.playlist ++ [some newItem]
    if s.currentEpisode = none then
      { s with playlist := newPlaylist, currentEpisodeIndex := some 0,
               currentEpisode := some newItem }
    else
      { s with playlist := newPlaylist }

/-- Action `removeFromPlaylist`.  The playlist keeps the elements whose position
differs from `index`; the cursor is patched following the source's branch
structure. -/
def removeFromPlaylist (index : ℤ) (s : PlayerState) : PlayerState :=
  let newPlaylist := filterOutIndex s.playlist index
  match s.currentEpisodeIndex with
  | some currentIndex =>
      if index = currentIndex then
        if newPlaylist.length = 0 then
          { s with playlist := newPlaylist, currentEpisodeIndex := none,
                   currentEpisode := none, isPlaying := false }
        else if index < (newPlaylist.length : ℤ) then
          { s with playlist := newPlaylist, currentEpisodeIndex := some index,
                   currentEpisode := (jsGet newPlaylist index).join }
        else
          { s with playlist := newPlaylist,
                   currentEpisodeIndex := some ((newPlaylist.length : ℤ) - 1),
                   currentEpisode := (jsGet newPlaylist ((newPlaylist.length : ℤ) - 1)).join }
      else if index < currentIndex then
        { s with playlist := newPlaylist, currentEpisodeIndex := some (currentIndex - 1) }
      else
        { s with playlist := newPlaylist, currentEpisodeIndex := some currentIndex }
  | none => { s with playlist := newPlaylist, currentEpisodeIndex := none }

/-- Action `moveInPlaylist`.  A literal translation of the two `splice` calls
(including their index clamping, and the fact that the second `splice`
inserts `movedItem` even when the first removed nothing and `movedItem`
is `undefined`) and of the cursor adjustment. -/
def moveInPlaylist (fromIndex toIndex : ℤ) (s : PlayerState) : PlayerState :=
  let r := spliceRemoveOne s.playlist fromIndex
  let newPlaylist := spliceInsert r.1 toIndex r.2.join
  let newCurrentIndex :=
    match s.currentEpisodeIndex with
    | none => none
    | some c =>
        if c = fromIndex then some toIndex
        else if (fromIndex < c ∧ c ≤ toIndex) ∨ (c < fromIndex ∧ toIndex ≤ c) then
          some (c + (if fromIndex < toIndex then -1 else 1))
        else some c
  { s with playlist := newPlaylist, currentEpisodeIndex := newCurrentIndex }

/-- Action `clearPlaylist`: keeps only the current episode when there is one. -/
def clearPlaylist (s : PlayerState) : PlayerState :=
  match s.currentEpisode with
  | some ce => { s with playlist := [some ce], currentEpisodeIndex := some 0 }
  | none => { s with playlist := [], currentEpisodeIndex := none }

/-- Action `skipToNext`. -/
def skipToNext (s : PlayerState) : PlayerState × List Effect :=
  if s.playlist.length = 0 then (s, [])
  else
    match s.currentEpisodeIndex with
    | none =>
        let firstItem := (jsGet s.playlist 0).join
        ({ s with currentEpisode := firstItem, currentEpisodeIndex := some 0,
                  currentTime := 0, isPlaying := true },
         loadIfFile firstItem 0)
    | some currentIndex =>
        if (s.playlist.length : ℤ) - 1 ≤ currentIndex then (s, [])
        else
          let nextIndex := currentIndex + 1
          let nextItem := (jsGet s.playlist nextIndex).join
          ({ s with currentEpisode := nextItem, currentEpisodeIndex := some nextIndex,
                    currentTime := 0, isPlaying := true },
           loadIfFile nextItem 0)

/-- Action `skipToPrevious`: restart when more than 3 seconds in, otherwise move
back one entry when possible. -/
def skipToPrevious (s : PlayerState) : PlayerState × List Effect :=
  if 3 < s.currentTime then
    ({ s with currentTime := 0 }, [Effect.seek 0])
  else if s.playlist.length = 0 then (s, [])
  else
    match s.currentEpisodeIndex with
    | none => (s, [])
    | some currentIndex =>
        if currentIndex ≤ 0 then (s, [])
        else
          let prevIndex := currentIndex - 1
          let prevItem := (jsGet s.playlist prevIndex).join
          ({ s with currentEpisode := prevItem, currentEpisodeIndex := some prevIndex,
                    currentTime := 0, isPlaying := true },
           loadIfFile prevItem 0)

/-- Action `setCurrentTime`. -/
def setCurrentTime (time : ℚ) (s : PlayerState) : PlayerState :=
  { s with currentTime := time }

/-- Action `setDuration`. -/
def setDuration (duration : ℚ) (s : PlayerState) : PlayerState :=
  { s with duration := duration }

/-- Action `skipForward`. -/
def skipForward (seconds : ℚ) (s : PlayerState) : PlayerState × List Effect :=
  match s.currentEpisode with
  | none => (s, [])
  | some _ =>
      let newTime := min (s.currentTime + seconds) s.duration
      ({ s with currentTime := newTime }, [Effect.seek newTime])

/-- Action `skipBackward`. -/
def skipBackward (seconds : ℚ) (s : PlayerState) : PlayerState × List Effect :=
  match s.currentEpisode with
  | none => (s, [])
  | some _ =>
      let newTime := max (s.currentTime - seconds) 0
      ({ s with currentTime := newTime }, [Effect.seek newTime])

/-- Action `setVolume` with an explicit storage outcome: the in-memory update
happens first, then `localStorage.setItem` (which may throw — the source
has no try/catch, so a failure aborts before the engine volume call).
The `Bool` in the result reports whether an exception escaped. -/
def setVolumeRun (volume : ℚ) (storageOk : Bool) (s : PlayerState) :
    PlayerState × List Effect × Bool :=
  let s' := { s with volume := volume }
  if storageOk then
    (s', [Effect.write "codecast_volume", Effect.engineVolume volume], false)
  else (s', [], true)

/-- Action `setVolume` on the normal (non-throwing) storage path. -/
def setVolume (volume : ℚ) (s : PlayerState) : PlayerState × List Effect :=
  let r := setVolumeRun volume true s
  (r.1, r.2.1)

/-- Action `toggleMute`: swaps the numeric `isMuted` field between `0` and the
current volume and pushes that value to the engine; the `volume` field
itself is not touched. -/
def toggleMute (s : PlayerState) : PlayerState × List Effect :=
  let newIsMuted := if s.isMuted = 0 then s.volume else 0
  ({ s with isMuted := newIsMuted }, [Effect.engineVolume newIsMuted])

/-- Action `setPlaybackRate` with an explicit storage outcome (same shape as
`setVolumeRun`). -/
def setPlaybackRateRun (rate : ℚ) (storageOk : Bool) (s : PlayerState) :
    PlayerState × List Effect × Bool :=
  let s' := { s with playbackRate := rate }
  if storageOk then
    (s', [Effect.write "codecast_playback_rate", Effect.engineRate rate], false)
  else (s', [], true)

/-- Action `setPlaybackRate` on the normal storage path. -/
def setPlaybackRate (rate : ℚ) (s : PlayerState) : PlayerState × List Effect :=
  let r := setPlaybackRateRun rate true s
  (r.1, r.2.1)

/-- Action `setSleepTimer` (`now` stands for `Date.now()`). -/
def setSleepTimer (minutes : Option ℚ) (now : ℚ) (s : PlayerState) : PlayerState :=
  match minutes with
  | none => { s with sleepTimer := none }
  | some m => { s with sleepTimer := some (now + m * 60 * 1000) }

/-- Action `markAsCompleted` with an explicit storage outcome: the completed map
is updated in memory, then persisted (the write may throw). -/
def markAsCompletedRun (storageOk : Bool) (s : PlayerState) :
    PlayerState × List Effect × Bool :=
  match s.currentEpisode with
  | none => (s, [], false)
  | some ce =>
      let key := getEpisodeKey ce.showId ce.seasonNumber ce.episode.episode
      let s' := { s with completedEpisodes :=
                    fun k => if k = key then true else s.completedEpisodes k }
      if storageOk then (s', [Effect.write "codecast_completed_episodes"], false)
      else (s', [], true)

/-- Action `markAsCompleted` on the normal storage path. -/
def markAsCompleted (s : PlayerState) : PlayerState × List Effect :=
  let r := markAsCompletedRun true s
  (r.1, r.2.1)

/-- Action `saveProgress` with an explicit storage outcome.  `audioNow` stands
for `audioService.getCurrentTime()`; the source prefers it when it is
finite and positive (a `ℚ` is always finite). -/
def saveProgressRun (audioNow : ℚ) (storageOk : Bool) (s : PlayerState) :
    PlayerState × List Effect × Bool :=
  match s.currentEpisode with
  | none => (s, [], false)
  | some ce =>
      if s.currentTime < 10 then (s, [], false)
      else
        let key := getEpisodeKey ce.showId ce.seasonNumber ce.episode.episode
        let timeToSave := if 0 < audioNow then audioNow else s.currentTime
        let s' := { s with episodeProgress :=
                      fun k => if k = key then some timeToSave else s.episodeProgress k }
        if storageOk then (s', [Effect.write "codecast_episode_progress"], false)
        else (s', [], true)

/-- Action `saveProgress` on the normal storage path. -/
def saveProgress (audioNow : ℚ) (s : PlayerState) : PlayerState × List Effect :=
  let r := saveProgressRun audioNow true s
  (r.1, r.2.1)

/-- Action `resetShowState`: clears the current episode and playback fields but
leaves `playlist` and `currentEpisodeIndex` as they are. -/
def resetShowState (s : PlayerState) : PlayerState :=
  { s with currentEpisode := none, isPlaying := false,
           currentTime := 0, duration := 0 }

/-! ## Engine events (`audioService.ts`) -/

/-- The `error` listener: `usePlayerStore.setState({ isPlaying: false })`. -/
def errorEvent (s : PlayerState) : PlayerState :=
  { s with isPlaying := false }

/-- The `ended` listener of `registerCoreEvents`: mark the current episode
completed, then either advance (`setState({currentEpisodeIndex:
nextIndex - 1})` followed by `skipToNext()`) when a next entry exists, or
stop (`isPlaying: false`). -/
def endedEvent (s : PlayerState) : PlayerState × List Effect :=
  let r1 := markAsCompleted s
  let s1 := r1.1
  match s1.currentEpisodeIndex with
  | none => ({ s1 with isPlaying := false }, r1.2)
  | some c =>
      if 0 < s1.playlist.length ∧ c < (s1.playlist.length : ℤ) - 1 then
        match jsGet s1.playlist (c + 1) with
        | some (some _) =>
            let s2 := { s1 with currentEpisodeIndex := some (c + 1 - 1) }
            let r2 := skipToNext s2
            (r2.1, r1.2 ++ r2.2)
        | _ => (s1, r1.2)
      else ({ s1 with isPlaying := false }, r1.2)

/-! ## The state machine: intents, step function, reachability -/

/-- One user intent or engine event, with its arguments.  `saveProgress`
carries the engine position it samples, `setSleepTimer` the current
wall-clock time. -/
inductive Intent where
  | togglePlayPause
  | playEpisode (showId showTitle : String) (seasonNumber : ℤ) (seasonTitle : String)
      (ep : Episode)
  | addToPlaylist (showId showTitle : String) (seasonNumber : ℤ) (seasonTitle : String)
      (ep : Episode)
  | removeFromPlaylist (index : ℤ)
  | moveInPlaylist (fromIndex toIndex : ℤ)
  | clearPlaylist
  | skipToNext
  | skipToPrevious
  | skipForward (seconds : ℚ)
  | skipBackward (seconds : ℚ)
  | setCurrentTime (t : ℚ)
  | setDuration (d : ℚ)
  | setVolume (v : ℚ)
  | toggleMute
  | setPlaybackRate (r : ℚ)
  | setSleepTimer (minutes : Option ℚ) (now : ℚ)
  | markAsCompleted
  | saveProgress (audioNow : ℚ)
  | resetShowState
  | ended
  | engineError
  deriving DecidableEq

/-- The state transition of each intent (engine/storage effects
projected away). -/
def step : Intent → PlayerState → PlayerState
  | .togglePlayPause, s => togglePlayPause s
  | .playEpisode a b c d e, s => (playEpisode a b c d e s).1
  | .addToPlaylist a b c d e, s => addToPlaylist a b c d e s
  | .removeFromPlaylist i, s => removeFromPlaylist i s
  | .moveInPlaylist f t, s => moveInPlaylist f t s
  | .clearPlaylist, s => clearPlaylist s
  | .skipToNext, s => (skipToNext s).1
  | .skipToPrevious, s => (skipToPrevious s).1
  | .skipForward x, s => (skipForward x s).1
  | .skipBackward x, s => (skipBackward x s).1
  | .setCurrentTime t, s => setCurrentTime t s
  | .setDuration d, s => setDuration d s
  | .setVolume v, s => (setVolume v s).1
  | .toggleMute, s => (toggleMute s).1
  | .setPlaybackRate r, s => (setPlaybackRate r s).1
  | .setSleepTimer m now, s => setSleepTimer m now s
  | .markAsCompleted, s => (markAsCompleted s).1
  | .saveProgress t, s => (saveProgress t s).1
  | .resetShowState, s => resetShowState s
  | .ended, s => (endedEvent s).1
  | .engineError, s => errorEvent s

/-- Validity of an intent in a state: the queue indices sent by the UI
(list positions of rendered entries) are in range; every other intent is
unrestricted. -/
def ValidIntent (s : PlayerState) : Intent → Prop
  | .removeFromPlaylist i => 0 ≤ i ∧ i < (s.playlist.length : ℤ)
  | .moveInPlaylist f t =>
      0 ≤ f ∧ f < (s.playlist.length : ℤ) ∧ 0 ≤ t ∧ t < (s.playlist.length : ℤ)
  | _ => True

/-- States reachable from the initial state by intents satisfying `P`. -/
inductive ReachableFrom (P : PlayerState → Intent → Prop) : PlayerState → Prop where
  | init (volume playbackRate : ℚ) (completedEpisodes : String → Bool)
      (episodeProgress : String → Option ℚ) :
      ReachableFrom P (initState volume playbackRate completedEpisodes episodeProgress)
  | next {s : PlayerState} {it : Intent} :
      ReachableFrom P s → P s it → ReachableFrom P (step it s)

/-- Reachability under the full alphabet with in-range queue indices. -/
def Reachable : PlayerState → Prop := ReachableFrom ValidIntent

/-- Reachability avoiding `resetShowState` (used for the denormalized-pair
invariant, which `resetShowState` deliberately breaks). -/
def ReachableNR : PlayerState → Prop :=
  ReachableFrom fun s it => ValidIntent s it ∧ it ≠ Intent.resetShowState

/-! ## Invariants -/

/-- The cursor, when set, is a valid queue index. -/
def cursorInRange (s : PlayerState) : Prop :=
  ∀ c, s.currentEpisodeIndex = some c → 0 ≤ c ∧ c < (s.playlist.length : ℤ)

/-- Every queue slot holds a defined entry (no JS `undefined` holes). -/
def slotsDefined (s : PlayerState) : Prop :=
  ∀ x ∈ s.playlist, x ≠ none

/-- The denormalized pair is consistent at the level of episode identity:
when the cursor is set, `currentEpisode` is non-null and the queue entry
under the cursor has the same identity. -/
def pairConsistent (s : PlayerState) : Prop :=
  ∀ c, s.currentEpisodeIndex = some c →
    ∃ e e', s.currentEpisode = some e ∧ jsGet s.playlist c = some (some e') ∧
      identOf e' = identOf e

/-- With no current episode the queue is empty (true of every state the
store reaches without `resetShowState`). -/
def emptyWhenNoCurrent (s : PlayerState) : Prop :=
  s.currentEpisode = none → s.playlist = []

/-- No two defined queue entries share an identity. -/
def queueIdentsNodup (l : List Slot) : Prop :=
  l.Pairwise fun a b => ∀ ea eb, a = some ea → b = some eb → identOf ea ≠ identOf eb

/-! ## Lemmas about the JS array primitives -/

theorem spliceStart_le (len : ℕ) (i : ℤ) : spliceStart len i ≤ len := by
  unfold spliceStart
  split <;> omega

theorem spliceStart_inRange {len : ℕ} {i : ℤ} (h0 : 0 ≤ i) (h1 : i < (len : ℤ)) :
    spliceStart len i = i.toNat := by
  unfold spliceStart
  split <;> omega

theorem jsGet_nonneg {i : ℤ} (l : List α) (h : 0 ≤ i) : jsGet l i = l[i.toNat]? := by
  unfold jsGet
  rw [if_neg (by omega)]

theorem length_spliceInsert (l : List α) (i : ℤ) (x : α) :
    (spliceInsert l i x).length = l.length + 1 := by
  have h := spliceStart_le l.length i
  unfold spliceInsert
  simp only [List.length_append, List.length_take, List.length_drop, List.length_cons,
    List.length_nil]
  omega

theorem eraseAt_getElem? (l : List α) (n k : ℕ) (hn : n < l.length) :
    (l.take n ++ l.drop (n + 1))[k]? = if k < n then l[k]? else l[k + 1]? := by
  simp only [List.getElem?_append, List.length_take, List.getElem?_take, List.getElem?_drop,
    min_eq_left (le_of_lt hn)]
  split_ifs <;> first
    | rfl
    | omega
    | (congr 1 <;> omega)
    | (rw [List.getElem?_eq_none (by omega), List.getElem?_eq_none (by omega)])

theorem insertAt_getElem? (E : List α) (t : ℕ) (x : α) (ht : t ≤ E.length) (k : ℕ) :
    (E.take t ++ [x] ++ E.drop t)[k]? =
      if k < t then E[k]? else if k = t then some x else E[k - 1]? := by
  simp only [List.getElem?_append, List.length_append, List.length_take, List.getElem?_take,
    List.getElem?_drop, List.length_cons, List.length_nil, min_eq_left ht]
  split_ifs <;> first
    | rfl
    | omega
    | (congr 1 <;> omega)
    | (rw [List.getElem?_eq_none (by omega), List.getElem?_eq_none (by omega)])
    | (have h0 : k - t = 0 := by omega
       rw [h0]
       rfl)

theorem enumFilter_out : ∀ (l : List α) (n : ℕ) (i : ℤ),
    (i < (n : ℤ) ∨ ((n : ℤ) + l.length) ≤ i) →
    ((List.enumFrom n l).filter (fun p => ((p.1 : ℤ) ≠ i : Bool))).map Prod.snd = l := by
  intro l
  induction l with
  | nil => intro n i _; rfl
  | cons a as ih =>
      intro n i h
      simp only [List.length_cons] at h
      have hne : decide ((n : ℤ) ≠ i) = true := by
        simp only [decide_eq_true_eq]
        omega
      simp only [List.enumFrom_cons, List.filter_cons, hne, if_true, List.map_cons]
      rw [ih (n + 1) i (by push_cast at h ⊢; omega)]

theorem enumFilter_in : ∀ (l : List α) (n : ℕ) (i : ℤ), (n : ℤ) ≤ i →
    i < (n : ℤ) + l.length →
    ((List.enumFrom n l).filter (fun p => ((p.1 : ℤ) ≠ i : Bool))).map Prod.snd =
      l.take (i - n).toNat ++ l.drop ((i - n).toNat + 1) := by
  intro l
  induction l with
  | nil => intro n i h1 h2; simp only [List.length_nil] at h2; omega
  | cons a as ih =>
      intro n i h1 h2
      simp only [List.length_cons] at h2
      by_cases heq : (n : ℤ) = i
      · have h0 : (i - n).toNat = 0 := by omega
        have hd : decide ((n : ℤ) ≠ i) = false := by
          simp only [decide_eq_false_iff_not, not_not]
          exact heq
        simp only [List.enumFrom_cons, List.filter_cons, hd, if_false, h0, List.take_zero,
          List.drop_succ_cons, List.drop_zero, List.nil_append]
        exact enumFilter_out as (n + 1) i (by push_cast; omega)
      · have hne : decide ((n : ℤ) ≠ i) = true := by
          simp only [decide_eq_true_eq]
          omega
        have hm : (i - n).toNat = (i - (n + 1 : ℕ)).toNat + 1 := by push_cast; omega
        simp only [List.enumFrom_cons, List.filter_cons, hne, if_true, List.map_cons, hm,
          List.take_succ_cons, List.drop_succ_cons, List.cons_append]
        rw [ih (n + 1) i (by push_cast; omega) (by push_cast; push_cast at h2; omega)]

theorem filterOutIndex_out (l : List α) (i : ℤ)
    (h : i < 0 ∨ (l.length : ℤ) ≤ i) : filterOutIndex l i = l := by
  unfold filterOutIndex
  rw [List.enum]
  exact enumFilter_out l 0 i (by push_cast; omega)

theorem filterOutIndex_inRange (l : List α) (i : ℤ) (h0 : 0 ≤ i)
    (h1 : i < (l.length : ℤ)) :
    filterOutIndex l i = l.take i.toNat ++ l.drop (i.toNat + 1) := by
  unfold filterOutIndex
  rw [List.enum]
  have := enumFilter_in l 0 i (by omega) (by push_cast; omega)
  simpa using this

theorem findIdx?_some_spec {l : List α} {p : α → Bool} {n : ℕ}
    (h : l.findIdx? p = some n) : n < l.length ∧ ∃ x, l[n]? = some x ∧ p x := by
  have h1 := List.findIdx?_eq_some_iff_findIdx_eq.mp h
  obtain ⟨hlt, hfi⟩ := h1
  refine ⟨hlt, l[n], by simp, ?_⟩
  subst hfi
  exact List.findIdx_getElem (w := hlt)

theorem findIdx?_none_spec {l : List α} {p : α → Bool}
    (h : l.findIdx? p = none) : ∀ x ∈ l, ¬ p x := by
  simpa using List.findIdx?_eq_none_iff.mp h

/-! ## Preservation of the cursor range invariant, operation by operation -/

theorem cursorInRange_congr {s s' : PlayerState} (hp : s'.playlist = s.playlist)
    (hi : s'.currentEpisodeIndex = s.currentEpisodeIndex) (h : cursorInRange s) :
    cursorInRange s' := by
  intro c hc
  rw [hi] at hc
  rw [hp]
  exact h c hc

theorem markAsCompleted_fields (s : PlayerState) :
    (markAsCompleted s).1.playlist = s.playlist ∧
    (markAsCompleted s).1.currentEpisodeIndex = s.currentEpisodeIndex ∧
    (markAsCompleted s).1.currentEpisode = s.currentEpisode ∧
    (markAsCompleted s).1.isPlaying = s.isPlaying := by
  cases hce : s.currentEpisode <;>
    simp [markAsCompleted, markAsCompletedRun, hce]

theorem saveProgress_fields (audioNow : ℚ) (s : PlayerState) :
    (saveProgress audioNow s).1.playlist = s.playlist ∧
    (saveProgress audioNow s).1.currentEpisodeIndex = s.currentEpisodeIndex ∧
    (saveProgress audioNow s).1.currentEpisode = s.currentEpisode := by
  cases hce : s.currentEpisode <;>
    simp [saveProgress, saveProgressRun, hce] <;>
    split_ifs <;> simp [hce]

theorem togglePlayPause_spec_start {s : PlayerState}
    (hc : ¬s.isPlaying ∧ s.currentEpisode = none ∧ 0 < s.playlist.length) :
    togglePlayPause s =
      { s with currentEpisode := (jsGet s.playlist 0).join,
               currentEpisodeIndex := some 0, isPlaying := true } := by
  simp only [togglePlayPause, if_pos hc]

theorem togglePlayPause_spec_flip {s : PlayerState}
    (hc : ¬(¬s.isPlaying ∧ s.currentEpisode = none ∧ 0 < s.playlist.length)) :
    togglePlayPause s = { s with isPlaying := ¬s.isPlaying } := by
  simp only [togglePlayPause, if_neg hc]

theorem togglePlayPause_cursor {s : PlayerState} (h : cursorInRange s) :
    cursorInRange (togglePlayPause s) := by
  by_cases hc : ¬s.isPlaying ∧ s.currentEpisode = none ∧ 0 < s.playlist.length
  · rw [togglePlayPause_spec_start hc]
    intro k hk
    simp only at hk ⊢
    obtain rfl : (0 : ℤ) = k := by simpa using hk
    exact ⟨le_refl 0, by exact_mod_cast hc.2.2⟩
  · rw [togglePlayPause_spec_flip hc]
    exact cursorInRange_congr rfl rfl h

theorem playEpisode_found (a b : String) (c : ℤ) (d : String) (ep : Episode)
    (s : PlayerState) {n : ℕ}
    (hfi : s.playlist.findIdx? (slotMatches a c ep.episode) = some n) :
    (playEpisode a b c d ep s).1.playlist = s.playlist ∧
    (playEpisode a b c d ep s).1.currentEpisodeIndex = some (n : ℤ) ∧
    (playEpisode a b c d ep s).1.currentEpisode = some ⟨a, b, c, d, ep⟩ ∧
    (playEpisode a b c d ep s).1.isPlaying = true := by
  simp [playEpisode, jsFindIndex, hfi, Int.natCast_nonneg]

theorem playEpisode_notFound (a b : String) (c : ℤ) (d : String) (ep : Episode)
    (s : PlayerState)
    (hfi : s.playlist.findIdx? (slotMatches a c ep.episode) = none) :
    (playEpisode a b c d ep s).1.playlist = s.playlist ++ [some ⟨a, b, c, d, ep⟩] ∧
    (playEpisode a b c d ep s).1.currentEpisodeIndex = some (s.playlist.length : ℤ) ∧
    (playEpisode a b c d ep s).1.currentEpisode = some ⟨a, b, c, d, ep⟩ ∧
    (playEpisode a b c d ep s).1.isPlaying = true := by
  have hneg : ¬ (0 : ℤ) ≤ -1 := by norm_num
  simp [playEpisode, jsFindIndex, hfi, hneg]

theorem playEpisode_cursor (a b : String) (c : ℤ) (d : String) (ep : Episode)
    {s : PlayerState} (h : cursorInRange s) :
    cursorInRange (playEpisode a b c d ep s).1 := by
  rcases hfi : s.playlist.findIdx? (slotMatches a c ep.episode) with _ | n
  · obtain ⟨hp, hi, -, -⟩ := playEpisode_notFound a b c d ep s hfi
    intro k hk
    rw [hi] at hk
    obtain rfl : (s.playlist.length : ℤ) = k := Option.some_injective _ hk
    rw [hp]
    simp only [List.length_append, List.length_cons, List.length_nil]
    push_cast
    omega
  · have hn := (findIdx?_some_spec hfi).1
    obtain ⟨hp, hi, -, -⟩ := playEpisode_found a b c d ep s hfi
    intro k hk
    rw [hi] at hk
    obtain rfl : ((n : ℤ)) = k := Option.some_injective _ hk
    rw [hp]
    constructor
    · exact Int.natCast_nonneg n
    · exact_mod_cast hn

theorem addToPlaylist_dup (a b : String) (c : ℤ) (d : String) (ep : Episode)
    (s : PlayerState)
    (hdup : s.playlist.any (slotMatches a c ep.episode) = true) :
    addToPlaylist a b c d ep s = s := by
  simp only [addToPlaylist, hdup, if_true]

theorem addToPlaylist_new_noneCur (a b : String) (c : ℤ) (d : String) (ep : Episode)
    (s : PlayerState)
    (hdup : s.playlist.any (slotMatches a c ep.episode) = false)
    (hce : s.currentEpisode = none) :
    addToPlaylist a b c d ep s =
      { s with playlist := s.playlist ++ [some ⟨a, b, c, d, ep⟩],
               currentEpisodeIndex := some 0,
               currentEpisode := some ⟨a, b, c, d, ep⟩ } := by
  simp [addToPlaylist, hdup, hce]

theorem addToPlaylist_new_someCur (a b : String) (c : ℤ) (d : String) (ep : Episode)
    (s : PlayerState) {e : PlayerEpisode}
    (hdup : s.playlist.any (slotMatches a c ep.episode) = false)
    (hce : s.currentEpisode = some e) :
    addToPlaylist a b c d ep s =
      { s with playlist := s.playlist ++ [some ⟨a, b, c, d, ep⟩] } := by
  simp [addToPlaylist, hdup, hce]

theorem addToPlaylist_cursor (a b : String) (c : ℤ) (d : String) (ep : Episode)
    {s : PlayerState} (h : cursorInRange s) :
    cursorInRange (addToPlaylist a b c d ep s) := by
  by_cases hdup : s.playlist.any (slotMatches a c ep.episode) = true
  · rw [addToPlaylist_dup a b c d ep s hdup]
    exact h
  · have hdup' : s.playlist.any (slotMatches a c ep.episode) = false := by
      simpa using hdup
    cases hce : s.currentEpisode with
    | none =>
        rw [addToPlaylist_new_noneCur a b c d ep s hdup' hce]
        intro k hk
        simp only at hk ⊢
        obtain rfl : (0 : ℤ) = k := by simpa using hk
        simp only [List.length_append, List.length_cons, List.length_nil]
        constructor
        · exact le_refl 0
        · push_cast
          omega
    | some e =>
        rw [addToPlaylist_new_someCur a b c d ep s hdup' hce]
        intro k hk
        simp only at hk ⊢
        have := h k hk
        simp only [List.length_append, List.length_cons, List.length_nil]
        push_cast at *
        omega

theorem removeFromPlaylist_cursor {i : ℤ} {s : PlayerState} (h : cursorInRange s)
    (h0 : 0 ≤ i) (h1 : i < (s.playlist.length : ℤ)) :
    cursorInRange (removeFromPlaylist i s) := by
  have hlen : (filterOutIndex s.playlist i).length = s.playlist.length - 1 := by
    rw [filterOutIndex_inRange _ _ h0 h1]
    simp only [List.length_append, List.length_take, List.length_drop]
    omega
  unfold removeFromPlaylist
  cases hix : s.currentEpisodeIndex with
  | none =>
      simp only [hix]
      intro k hk
      simp at hk
  | some cur =>
      have hcur := h cur hix
      simp only [hix]
      split_ifs with hic hz hsm <;> intro k hk <;> simp at hk <;>
        (try push_cast at *) <;> omega

theorem moveInPlaylist_cursor {f t : ℤ} {s : PlayerState} (h : cursorInRange s)
    (hf0 : 0 ≤ f) (hf1 : f < (s.playlist.length : ℤ))
    (ht0 : 0 ≤ t) (ht1 : t < (s.playlist.length : ℤ)) :
    cursorInRange (moveInPlaylist f t s) := by
  have hrlen : (spliceRemoveOne s.playlist f).1.length = s.playlist.length - 1 := by
    unfold spliceRemoveOne
    simp only [spliceStart_inRange hf0 hf1, List.length_append, List.length_take,
      List.length_drop]
    omega
  have hlen : (spliceInsert (spliceRemoveOne s.playlist f).1 t
      (spliceRemoveOne s.playlist f).2.join).length = s.playlist.length := by
    rw [length_spliceInsert, hrlen]
    omega
  unfold moveInPlaylist
  cases hix : s.currentEpisodeIndex with
  | none =>
      simp only [hix]
      intro k hk
      simp at hk
  | some cur =>
      have hcur := h cur hix
      simp only [hix]
      intro k hk
      simp only at hk ⊢
      rw [hlen]
      split_ifs at hk <;>
        (obtain rfl : _ = k := Option.some_injective _ hk
         push_cast at *
         omega)

theorem clearPlaylist_cursor {s : PlayerState} :
    cursorInRange (clearPlaylist s) := by
  unfold clearPlaylist
  cases hce : s.currentEpisode <;> intro k hk <;> simp only at hk ⊢
  · simp at hk
  · obtain rfl : (0 : ℤ) = k := by simpa using hk
    simp

theorem skipToNext_cursor {s : PlayerState} (h : cursorInRange s) :
    cursorInRange (skipToNext s).1 := by
  by_cases h0 : s.playlist.length = 0
  · simp only [skipToNext, if_pos h0]
    exact h
  · cases hix : s.currentEpisodeIndex with
    | none =>
        simp only [skipToNext, if_neg h0, hix]
        intro k hk
        simp only at hk ⊢
        obtain rfl : (0 : ℤ) = k := by simpa using hk
        constructor <;> [exact le_refl 0; push_cast] <;> omega
    | some cur =>
        have hcur := h cur hix
        simp only [skipToNext, if_neg h0, hix]
        split_ifs with h1
        · exact h
        · intro k hk
          simp only at hk ⊢
          obtain rfl : cur + 1 = k := Option.some_injective _ hk
          push_cast at *
          omega

theorem skipToPrevious_cursor {s : PlayerState} (h : cursorInRange s) :
    cursorInRange (skipToPrevious s).1 := by
  unfold skipToPrevious
  split_ifs with h3 h0
  · exact cursorInRange_congr rfl rfl h
  · exact h
  · cases hix : s.currentEpisodeIndex with
    | none =>
        simp only [hix]
        exact h
    | some cur =>
        have hcur := h cur hix
        simp only [hix]
        split_ifs with h1
        · exact h
        · intro k hk
          simp only at hk ⊢
          obtain rfl : cur - 1 = k := Option.some_injective _ hk
          omega

theorem endedEvent_cursor {s : PlayerState} (h : cursorInRange s) :
    cursorInRange (endedEvent s).1 := by
  obtain ⟨hp, hi, -, -⟩ := markAsCompleted_fields s
  have h1 : cursorInRange (markAsCompleted s).1 := cursorInRange_congr hp hi h
  simp only [endedEvent]
  cases hix : (markAsCompleted s).1.currentEpisodeIndex with
  | none =>
      simp only [hix]
      intro k hk
      exact absurd hk (by simp)
  | some cur =>
      have hcur := h1 cur hix
      simp only [hix]
      split_ifs with hc
      · cases hget : jsGet (markAsCompleted s).1.playlist (cur + 1) with
        | none =>
            simp only [hget]
            exact h1
        | some slot =>
            cases slot with
            | none =>
                simp only [hget]
                exact h1
            | some e =>
                simp only [hget]
                refine skipToNext_cursor ?_
                intro k hk
                obtain rfl : cur + 1 - 1 = k := Option.some_injective _ hk
                dsimp only
                omega
      · intro k hk
        obtain rfl : cur = k := Option.some_injective _ hk
        exact hcur

theorem step_cursor {s : PlayerState} (it : Intent) (h : cursorInRange s)
    (hv : ValidIntent s it) : cursorInRange (step it s) := by
  cases it with
  | togglePlayPause => exact togglePlayPause_cursor h
  | playEpisode a b c d e => exact playEpisode_cursor a b c d e h
  | addToPlaylist a b c d e => exact addToPlaylist_cursor a b c d e h
  | removeFromPlaylist i => exact removeFromPlaylist_cursor h hv.1 hv.2
  | moveInPlaylist f t => exact moveInPlaylist_cursor h hv.1 hv.2.1 hv.2.2.1 hv.2.2.2
  | clearPlaylist => exact clearPlaylist_cursor
  | skipToNext => exact skipToNext_cursor h
  | skipToPrevious => exact skipToPrevious_cursor h
  | skipForward x =>
      show cursorInRange (skipForward x s).1
      cases hce : s.currentEpisode with
      | none => simpa [skipForward, hce] using h
      | some e =>
          simp only [skipForward, hce]
          exact cursorInRange_congr rfl rfl h
  | skipBackward x =>
      show cursorInRange (skipBackward x s).1
      cases hce : s.currentEpisode with
      | none => simpa [skipBackward, hce] using h
      | some e =>
          simp only [skipBackward, hce]
          exact cursorInRange_congr rfl rfl h
  | setCurrentTime t => exact cursorInRange_congr rfl rfl h
  | setDuration d => exact cursorInRange_congr rfl rfl h
  | setVolume v => exact cursorInRange_congr rfl rfl h
  | toggleMute => exact cursorInRange_congr rfl rfl h
  | setPlaybackRate r => exact cursorInRange_congr rfl rfl h
  | setSleepTimer m now =>
      show cursorInRange (setSleepTimer m now s)
      cases m <;> simp only [setSleepTimer] <;> exact cursorInRange_congr rfl rfl h
  | markAsCompleted =>
      obtain ⟨hp, hi, -, -⟩ := markAsCompleted_fields s
      exact cursorInRange_congr hp hi h
  | saveProgress t =>
      obtain ⟨hp, hi, -⟩ := saveProgress_fields t s
      exact cursorInRange_congr hp hi h
  | resetShowState => exact cursorInRange_congr rfl rfl h
  | ended => exact endedEvent_cursor h
  | engineError => exact cursorInRange_congr rfl rfl h

theorem reachable_cursorInRange {s : PlayerState} (h : Reachable s) : cursorInRange s := by
  induction h with
  | init v r ce ep =>
      intro c hc
      simp [initState] at hc
  | next hr hv ih => exact step_cursor _ ih hv

/-! ## The denormalized-pair invariant (`Inv10`) -/

/-- The combined invariant carried through the `resetShowState`-free
induction: cursor in range, defined slots, identity-consistent
denormalized pair, and empty queue whenever there is no current
episode. -/
def Inv10 (s : PlayerState) : Prop :=
  cursorInRange s ∧ slotsDefined s ∧ pairConsistent s ∧ emptyWhenNoCurrent s

theorem inv10_congr {s s' : PlayerState} (h : Inv10 s)
    (hp : s'.playlist = s.playlist)
    (hi : s'.currentEpisodeIndex = s.currentEpisodeIndex)
    (he : s'.currentEpisode = s.currentEpisode) : Inv10 s' := by
  obtain ⟨h1, h2, h3, h4⟩ := h
  refine ⟨cursorInRange_congr hp hi h1, ?_, ?_, ?_⟩
  · intro x hx
    exact h2 x (by rwa [hp] at hx)
  · intro c hc
    rw [hi] at hc
    rw [hp, he]
    exact h3 c hc
  · intro hnone
    rw [he] at hnone
    rw [hp]
    exact h4 hnone

theorem slotMatches_spec {a : String} {c n : ℤ} {x : Slot}
    (h : slotMatches a c n x = true) :
    ∃ e, x = some e ∧ e.showId = a ∧ e.seasonNumber = c ∧ e.episode.episode = n := by
  cases x with
  | none => simp [slotMatches] at h
  | some e =>
      simp only [slotMatches, decide_eq_true_eq] at h
      exact ⟨e, rfl, h.1, h.2.1, h.2.2⟩

theorem jsGet_inRange_some {l : List α} {i : ℤ} (h0 : 0 ≤ i)
    (h1 : i < (l.length : ℤ)) :
    ∃ x, jsGet l i = some x ∧ x ∈ l := by
  have hlt : i.toNat < l.length := by omega
  refine ⟨l[i.toNat], ?_, List.getElem_mem hlt⟩
  rw [jsGet_nonneg _ h0]
  exact List.getElem?_eq_getElem hlt

theorem spliceStart_toNat_le {len : ℕ} {i : ℤ} (h0 : 0 ≤ i) (h1 : i.toNat ≤ len) :
    spliceStart len i = i.toNat := by
  unfold spliceStart
  split <;> omega

theorem togglePlayPause_inv10 {s : PlayerState} (h : Inv10 s) :
    Inv10 (togglePlayPause s) := by
  by_cases hc : ¬s.isPlaying ∧ s.currentEpisode = none ∧ 0 < s.playlist.length
  · obtain ⟨h1, h2, h3, h4⟩ := h
    rw [togglePlayPause_spec_start hc]
    have hz : (0 : ℤ) < (s.playlist.length : ℤ) := by exact_mod_cast hc.2.2
    obtain ⟨slot, hslot, hmem⟩ := jsGet_inRange_some (l := s.playlist) le_rfl hz
    cases slot with
    | none => exact absurd rfl (h2 none hmem)
    | some e =>
        refine ⟨?_, ?_, ?_, ?_⟩
        · intro k hk
          obtain rfl : (0 : ℤ) = k := Option.some_injective _ hk
          exact ⟨le_rfl, hz⟩
        · intro x hx
          exact h2 x hx
        · intro k hk
          obtain rfl : (0 : ℤ) = k := Option.some_injective _ hk
          refine ⟨e, e, ?_, ?_, rfl⟩
          · show (jsGet s.playlist 0).join = some e
            rw [hslot]
            rfl
          · exact hslot
        · intro hnone
          have hj : (jsGet s.playlist 0).join = none := hnone
          rw [hslot] at hj
          exact absurd hj (by simp)
  · rw [togglePlayPause_spec_flip hc]
    exact inv10_congr h rfl rfl rfl

theorem jsGet_append_self (l : List α) (x : α) :
    jsGet (l ++ [x]) (l.length : ℤ) = some x := by
  rw [jsGet_nonneg _ (Int.natCast_nonneg _)]
  simp [List.getElem?_append]

theorem jsGet_append_of_lt {l : List α} {i : ℤ} (x : α) (h1 : i < (l.length : ℤ)) :
    jsGet (l ++ [x]) i = jsGet l i := by
  unfold jsGet
  split
  · rfl
  · rename_i hneg
    rw [List.getElem?_append, if_pos (show i.toNat < l.length by omega)]

/-! ### Branch characterizations of the skip operations -/

theorem skipToNext_spec_empty {s : PlayerState} (h0 : s.playlist.length = 0) :
    skipToNext s = (s, []) := by
  simp only [skipToNext, if_pos h0]

theorem skipToNext_spec_none {s : PlayerState} (h0 : ¬s.playlist.length = 0)
    (hix : s.currentEpisodeIndex = none) :
    skipToNext s =
      ({ s with currentEpisode := (jsGet s.playlist 0).join,
                currentEpisodeIndex := some 0, currentTime := 0, isPlaying := true },
       loadIfFile ((jsGet s.playlist 0).join) 0) := by
  simp only [skipToNext, if_neg h0, hix]

theorem skipToNext_spec_last {s : PlayerState} {cur : ℤ}
    (h0 : ¬s.playlist.length = 0) (hix : s.currentEpisodeIndex = some cur)
    (hl : (s.playlist.length : ℤ) - 1 ≤ cur) : skipToNext s = (s, []) := by
  simp only [skipToNext, if_neg h0, hix, if_pos hl]

theorem skipToNext_spec_adv {s : PlayerState} {cur : ℤ}
    (h0 : ¬s.playlist.length = 0) (hix : s.currentEpisodeIndex = some cur)
    (hl : ¬((s.playlist.length : ℤ) - 1 ≤ cur)) :
    skipToNext s =
      ({ s with currentEpisode := (jsGet s.playlist (cur + 1)).join,
                currentEpisodeIndex := some (cur + 1), currentTime := 0,
                isPlaying := true },
       loadIfFile ((jsGet s.playlist (cur + 1)).join) 0) := by
  simp only [skipToNext, if_neg h0, hix, if_neg hl]

theorem skipToPrevious_spec_restart {s : PlayerState} (h3 : 3 < s.currentTime) :
    skipToPrevious s = ({ s with currentTime := 0 }, [Effect.seek 0]) := by
  simp only [skipToPrevious, if_pos h3]

theorem skipToPrevious_spec_empty {s : PlayerState} (h3 : ¬3 < s.currentTime)
    (h0 : s.playlist.length = 0) : skipToPrevious s = (s, []) := by
  simp only [skipToPrevious, if_neg h3, if_pos h0]

theorem skipToPrevious_spec_none {s : PlayerState} (h3 : ¬3 < s.currentTime)
    (h0 : ¬s.playlist.length = 0) (hix : s.currentEpisodeIndex = none) :
    skipToPrevious s = (s, []) := by
  simp only [skipToPrevious, if_neg h3, if_neg h0, hix]

theorem skipToPrevious_spec_first {s : PlayerState} {cur : ℤ}
    (h3 : ¬3 < s.currentTime) (h0 : ¬s.playlist.length = 0)
    (hix : s.currentEpisodeIndex = some cur) (hc : cur ≤ 0) :
    skipToPrevious s = (s, []) := by
  simp only [skipToPrevious, if_neg h3, if_neg h0, hix, if_pos hc]

theorem skipToPrevious_spec_prev {s : PlayerState} {cur : ℤ}
    (h3 : ¬3 < s.currentTime) (h0 : ¬s.playlist.length = 0)
    (hix : s.currentEpisodeIndex = some cur) (hc : ¬cur ≤ 0) :
    skipToPrevious s =
      ({ s with currentEpisode := (jsGet s.playlist (cur - 1)).join,
                currentEpisodeIndex := some (cur - 1), currentTime := 0,
                isPlaying := true },
       loadIfFile ((jsGet s.playlist (cur - 1)).join) 0) := by
  simp only [skipToPrevious, if_neg h3, if_neg h0, hix, if_neg hc]

/-! ### Inv10 preservation for the remaining simple operations -/

theorem playEpisode_inv10 (a b : String) (c : ℤ) (d : String) (ep : Episode)
    {s : PlayerState} (h : Inv10 s) : Inv10 (playEpisode a b c d ep s).1 := by
  obtain ⟨h1, h2, h3, h4⟩ := h
  rcases hfi : s.playlist.findIdx? (slotMatches a c ep.episode) with _ | n
  · obtain ⟨hp, hi, he, -⟩ := playEpisode_notFound a b c d ep s hfi
    refine ⟨playEpisode_cursor a b c d ep h1, ?_, ?_, ?_⟩
    · intro x hx
      rw [hp] at hx
      rcases List.mem_append.mp hx with hx | hx
      · exact h2 x hx
      · simp only [List.mem_singleton] at hx
        subst hx
        simp
    · intro k hk
      rw [hi] at hk
      obtain rfl : (s.playlist.length : ℤ) = k := Option.some_injective _ hk
      refine ⟨⟨a, b, c, d, ep⟩, ⟨a, b, c, d, ep⟩, he, ?_, rfl⟩
      rw [hp]
      exact jsGet_append_self s.playlist (some ⟨a, b, c, d, ep⟩)
    · intro hnone
      rw [he] at hnone
      exact absurd hnone (by simp)
  · obtain ⟨hn, x, hx, hpx⟩ := findIdx?_some_spec hfi
    obtain ⟨e', hx', hid1, hid2, hid3⟩ := slotMatches_spec hpx
    obtain ⟨hp, hi, he, -⟩ := playEpisode_found a b c d ep s hfi
    refine ⟨playEpisode_cursor a b c d ep h1, ?_, ?_, ?_⟩
    · intro y hy
      rw [hp] at hy
      exact h2 y hy
    · intro k hk
      rw [hi] at hk
      obtain rfl : ((n : ℕ) : ℤ) = k := Option.some_injective _ hk
      refine ⟨⟨a, b, c, d, ep⟩, e', he, ?_, ?_⟩
      · rw [hp, jsGet_nonneg _ (Int.natCast_nonneg _), Int.toNat_natCast, hx, hx']
      · simp [identOf, hid1, hid2, hid3]
    · intro hnone
      rw [he] at hnone
      exact absurd hnone (by simp)

theorem addToPlaylist_inv10 (a b : String) (c : ℤ) (d : String) (ep : Episode)
    {s : PlayerState} (h : Inv10 s) : Inv10 (addToPlaylist a b c d ep s) := by
  obtain ⟨h1, h2, h3, h4⟩ := h
  by_cases hdup : s.playlist.any (slotMatches a c ep.episode) = true
  · rw [addToPlaylist_dup a b c d ep s hdup]
    exact ⟨h1, h2, h3, h4⟩
  · have hdup' : s.playlist.any (slotMatches a c ep.episode) = false := by
      simpa using hdup
    cases hce : s.currentEpisode with
    | none =>
        have hemp : s.playlist = [] := h4 hce
        rw [addToPlaylist_new_noneCur a b c d ep s hdup' hce]
        refine ⟨?_, ?_, ?_, ?_⟩
        · intro k hk
          obtain rfl : (0 : ℤ) = k := Option.some_injective _ hk
          simp [hemp]
        · intro x hx
          simp only [hemp, List.nil_append, List.mem_singleton] at hx
          subst hx
          simp
        · intro k hk
          obtain rfl : (0 : ℤ) = k := Option.some_injective _ hk
          refine ⟨⟨a, b, c, d, ep⟩, ⟨a, b, c, d, ep⟩, rfl, ?_, rfl⟩
          simp [hemp, jsGet]
        · intro hnone
          exact absurd hnone (by simp)
    | some e =>
        rw [addToPlaylist_new_someCur a b c d ep s hdup' hce]
        refine ⟨?_, ?_, ?_, ?_⟩
        · intro k hk
          have := h1 k hk
          simp only [List.length_append, List.length_cons, List.length_nil]
          push_cast
          omega
        · intro x hx
          rcases List.mem_append.mp hx with hx | hx
          · exact h2 x hx
          · simp only [List.mem_singleton] at hx
            subst hx
            simp
        · intro k hk
          obtain ⟨e0, e0', hee, hgl, hident⟩ := h3 k hk
          have hk' := h1 k hk
          exact ⟨e0, e0', hee, by rw [jsGet_append_of_lt _ hk'.2]; exact hgl, hident⟩
        · intro hnone
          rw [hce] at hnone
          exact absurd hnone (by simp)

theorem clearPlaylist_inv10 {s : PlayerState} (h : Inv10 s) :
    Inv10 (clearPlaylist s) := by
  obtain ⟨h1, h2, h3, h4⟩ := h
  cases hce : s.currentEpisode with
  | none =>
      simp only [clearPlaylist, hce]
      refine ⟨?_, ?_, ?_, ?_⟩
      · intro k hk
        exact absurd hk (by simp)
      · intro x hx
        simp at hx
      · intro k hk
        exact absurd hk (by simp)
      · intro _
        rfl
  | some e =>
      simp only [clearPlaylist, hce]
      refine ⟨?_, ?_, ?_, ?_⟩
      · intro k hk
        obtain rfl : (0 : ℤ) = k := Option.some_injective _ hk
        simp
      · intro x hx
        simp only [List.mem_singleton] at hx
        subst hx
        simp
      · intro k hk
        obtain rfl : (0 : ℤ) = k := Option.some_injective _ hk
        exact ⟨e, e, rfl, by simp [jsGet], rfl⟩
      · intro hnone
        exact absurd hnone (by simp)

theorem skipToNext_inv10 {s : PlayerState} (h : Inv10 s) :
    Inv10 (skipToNext s).1 := by
  obtain ⟨h1, h2, h3, h4⟩ := h
  by_cases h0 : s.playlist.length = 0
  · rw [skipToNext_spec_empty h0]
    exact ⟨h1, h2, h3, h4⟩
  · cases hix : s.currentEpisodeIndex with
    | none =>
        rw [skipToNext_spec_none h0 hix]
        obtain ⟨slot, hslot, hmem⟩ :=
          jsGet_inRange_some (l := s.playlist) le_rfl (by omega)
        cases slot with
        | none => exact absurd rfl (h2 none hmem)
        | some e =>
            refine ⟨?_, ?_, ?_, ?_⟩
            · intro k hk
              obtain rfl : (0 : ℤ) = k := Option.some_injective _ hk
              dsimp only
              omega
            · intro x hx
              exact h2 x hx
            · intro k hk
              obtain rfl : (0 : ℤ) = k := Option.some_injective _ hk
              refine ⟨e, e, ?_, hslot, rfl⟩
              show (jsGet s.playlist 0).join = some e
              rw [hslot]
              rfl
            · intro hnone
              have hj : (jsGet s.playlist 0).join = none := hnone
              rw [hslot] at hj
              exact absurd hj (by simp)
    | some cur =>
        have hcur := h1 cur hix
        by_cases hl : (s.playlist.length : ℤ) - 1 ≤ cur
        · rw [skipToNext_spec_last h0 hix hl]
          exact ⟨h1, h2, h3, h4⟩
        · rw [skipToNext_spec_adv h0 hix hl]
          obtain ⟨slot, hslot, hmem⟩ :=
            jsGet_inRange_some (l := s.playlist) (i := cur + 1) (by omega) (by omega)
          cases slot with
          | none => exact absurd rfl (h2 none hmem)
          | some e =>
              refine ⟨?_, ?_, ?_, ?_⟩
              · intro k hk
                obtain rfl : cur + 1 = k := Option.some_injective _ hk
                dsimp only
                omega
              · intro x hx
                exact h2 x hx
              · intro k hk
                obtain rfl : cur + 1 = k := Option.some_injective _ hk
                refine ⟨e, e, ?_, hslot, rfl⟩
                show (jsGet s.playlist (cur + 1)).join = some e
                rw [hslot]
                rfl
              · intro hnone
                have hj : (jsGet s.playlist (cur + 1)).join = none := hnone
                rw [hslot] at hj
                exact absurd hj (by simp)

theorem skipToPrevious_inv10 {s : PlayerState} (h : Inv10 s) :
    Inv10 (skipToPrevious s).1 := by
  obtain ⟨h1, h2, h3, h4⟩ := h
  by_cases h3t : 3 < s.currentTime
  · rw [skipToPrevious_spec_restart h3t]
    exact inv10_congr ⟨h1, h2, h3, h4⟩ rfl rfl rfl
  · by_cases h0 : s.playlist.length = 0
    · rw [skipToPrevious_spec_empty h3t h0]
      exact ⟨h1, h2, h3, h4⟩
    · cases hix : s.currentEpisodeIndex with
      | none =>
          rw [skipToPrevious_spec_none h3t h0 hix]
          exact ⟨h1, h2, h3, h4⟩
      | some cur =>
          have hcur := h1 cur hix
          by_cases hc : cur ≤ 0
          · rw [skipToPrevious_spec_first h3t h0 hix hc]
            exact ⟨h1, h2, h3, h4⟩
          · rw [skipToPrevious_spec_prev h3t h0 hix hc]
            obtain ⟨slot, hslot, hmem⟩ :=
              jsGet_inRange_some (l := s.playlist) (i := cur - 1) (by omega) (by omega)
            cases slot with
            | none => exact absurd rfl (h2 none hmem)
            | some e =>
                refine ⟨?_, ?_, ?_, ?_⟩
                · intro k hk
                  obtain rfl : cur - 1 = k := Option.some_injective _ hk
                  dsimp only
                  omega
                · intro x hx
                  exact h2 x hx
                · intro k hk
                  obtain rfl : cur - 1 = k := Option.some_injective _ hk
                  refine ⟨e, e, ?_, hslot, rfl⟩
                  show (jsGet s.playlist (cur - 1)).join = some e
                  rw [hslot]
                  rfl
                · intro hnone
                  have hj : (jsGet s.playlist (cur - 1)).join = none := hnone
                  rw [hslot] at hj
                  exact absurd hj (by simp)

/-! ### Branch characterizations of `removeFromPlaylist` and its Inv10 -/

theorem removeFromPlaylist_spec_noneIdx {i : ℤ} {s : PlayerState}
    (hix : s.currentEpisodeIndex = none) :
    removeFromPlaylist i s =
      { s with playlist := filterOutIndex s.playlist i, currentEpisodeIndex := none } := by
  simp only [removeFromPlaylist, hix]

theorem removeFromPlaylist_spec_cur_empty {i cur : ℤ} {s : PlayerState}
    (hix : s.currentEpisodeIndex = some cur) (hic : i = cur)
    (hz : (filterOutIndex s.playlist i).length = 0) :
    removeFromPlaylist i s =
      { s with playlist := filterOutIndex s.playlist i, currentEpisodeIndex := none,
               currentEpisode := none, isPlaying := false } := by
  simp only [removeFromPlaylist, hix, if_pos hic, if_pos hz]

theorem removeFromPlaylist_spec_cur_mid {i cur : ℤ} {s : PlayerState}
    (hix : s.currentEpisodeIndex = some cur) (hic : i = cur)
    (hz : ¬(filterOutIndex s.playlist i).length = 0)
    (hsm : i < ((filterOutIndex s.playlist i).length : ℤ)) :
    removeFromPlaylist i s =
      { s with playlist := filterOutIndex s.playlist i, currentEpisodeIndex := some i,
               currentEpisode := (jsGet (filterOutIndex s.playlist i) i).join } := by
  simp only [removeFromPlaylist, hix, if_pos hic, if_neg hz, if_pos hsm]

theorem removeFromPlaylist_spec_cur_last {i cur : ℤ} {s : PlayerState}
    (hix : s.currentEpisodeIndex = some cur) (hic : i = cur)
    (hz : ¬(filterOutIndex s.playlist i).length = 0)
    (hsm : ¬i < ((filterOutIndex s.playlist i).length : ℤ)) :
    removeFromPlaylist i s =
      { s with playlist := filterOutIndex s.playlist i,
               currentEpisodeIndex := some (((filterOutIndex s.playlist i).length : ℤ) - 1),
               currentEpisode :=
                 (jsGet (filterOutIndex s.playlist i)
                   (((filterOutIndex s.playlist i).length : ℤ) - 1)).join } := by
  simp only [removeFromPlaylist, hix, if_pos hic, if_neg hz, if_neg hsm]

theorem removeFromPlaylist_spec_before {i cur : ℤ} {s : PlayerState}
    (hix : s.currentEpisodeIndex = some cur) (hic : ¬i = cur) (hlt : i < cur) :
    removeFromPlaylist i s =
      { s with playlist := filterOutIndex s.playlist i,
               currentEpisodeIndex := some (cur - 1) } := by
  simp only [removeFromPlaylist, hix, if_neg hic, if_pos hlt]

theorem removeFromPlaylist_spec_after {i cur : ℤ} {s : PlayerState}
    (hix : s.currentEpisodeIndex = some cur) (hic : ¬i = cur) (hlt : ¬i < cur) :
    removeFromPlaylist i s =
      { s with playlist := filterOutIndex s.playlist i,
               currentEpisodeIndex := some cur } := by
  simp only [removeFromPlaylist, hix, if_neg hic, if_neg hlt]

theorem filterOutIndex_subset {l : List α} {i : ℤ} (h0 : 0 ≤ i)
    (h1 : i < (l.length : ℤ)) : ∀ x ∈ filterOutIndex l i, x ∈ l := by
  intro x hx
  rw [filterOutIndex_inRange l i h0 h1] at hx
  rcases List.mem_append.mp hx with hx | hx
  · exact List.take_subset _ _ hx
  · exact List.drop_subset _ _ hx

theorem filterOutIndex_length {l : List α} {i : ℤ} (h0 : 0 ≤ i)
    (h1 : i < (l.length : ℤ)) :
    (filterOutIndex l i).length = l.length - 1 := by
  rw [filterOutIndex_inRange l i h0 h1]
  simp only [List.length_append, List.length_take, List.length_drop]
  omega

theorem filterOutIndex_getElem? {l : List α} {i : ℤ} (h0 : 0 ≤ i)
    (h1 : i < (l.length : ℤ)) (k : ℕ) :
    (filterOutIndex l i)[k]? = if k < i.toNat then l[k]? else l[k + 1]? := by
  rw [filterOutIndex_inRange l i h0 h1]
  exact eraseAt_getElem? l i.toNat k (by omega)

theorem removeFromPlaylist_inv10 {i : ℤ} {s : PlayerState} (h : Inv10 s)
    (h0 : 0 ≤ i) (h1 : i < (s.playlist.length : ℤ)) :
    Inv10 (removeFromPlaylist i s) := by
  obtain ⟨hc, hs, hpair, hemp⟩ := h
  have hsub := filterOutIndex_subset (l := s.playlist) h0 h1
  have hlen := filterOutIndex_length (l := s.playlist) h0 h1
  have hcr := removeFromPlaylist_cursor hc h0 h1
  cases hix : s.currentEpisodeIndex with
  | none =>
      rw [removeFromPlaylist_spec_noneIdx hix] at hcr ⊢
      refine ⟨hcr, ?_, ?_, ?_⟩
      · intro x hx
        exact hs x (hsub x hx)
      · intro k hk
        exact absurd hk (by simp)
      · intro hnone
        have := hemp hnone
        exfalso
        rw [this] at h1
        simp at h1
        omega
  | some cur =>
      by_cases hic : i = cur
      · by_cases hz : (filterOutIndex s.playlist i).length = 0
        · rw [removeFromPlaylist_spec_cur_empty hix hic hz] at hcr ⊢
          refine ⟨hcr, ?_, ?_, ?_⟩
          · intro x hx
            exact hs x (hsub x hx)
          · intro k hk
            exact absurd hk (by simp)
          · intro _
            exact List.length_eq_zero.mp hz
        · by_cases hsm : i < ((filterOutIndex s.playlist i).length : ℤ)
          · rw [removeFromPlaylist_spec_cur_mid hix hic hz hsm] at hcr ⊢
            obtain ⟨slot, hslot, hmem⟩ :=
              jsGet_inRange_some (l := filterOutIndex s.playlist i) h0 hsm
            cases slot with
            | none => exact absurd rfl (hs none (hsub none hmem))
            | some e =>
                refine ⟨hcr, ?_, ?_, ?_⟩
                · intro x hx
                  exact hs x (hsub x hx)
                · intro k hk
                  obtain rfl : i = k := Option.some_injective _ hk
                  refine ⟨e, e, ?_, hslot, rfl⟩
                  show (jsGet (filterOutIndex s.playlist i) i).join = some e
                  rw [hslot]
                  rfl
                · intro hnone
                  have hj : (jsGet (filterOutIndex s.playlist i) i).join = none := hnone
                  rw [hslot] at hj
                  exact absurd hj (by simp)
          · rw [removeFromPlaylist_spec_cur_last hix hic hz hsm] at hcr ⊢
            have hbound : ((filterOutIndex s.playlist i).length : ℤ) - 1 <
                ((filterOutIndex s.playlist i).length : ℤ) := by omega
            obtain ⟨slot, hslot, hmem⟩ :=
              jsGet_inRange_some (l := filterOutIndex s.playlist i)
                (i := ((filterOutIndex s.playlist i).length : ℤ) - 1) (by omega) hbound
            cases slot with
            | none => exact absurd rfl (hs none (hsub none hmem))
            | some e =>
                refine ⟨hcr, ?_, ?_, ?_⟩
                · intro x hx
                  exact hs x (hsub x hx)
                · intro k hk
                  obtain rfl : ((filterOutIndex s.playlist i).length : ℤ) - 1 = k :=
                    Option.some_injective _ hk
                  refine ⟨e, e, ?_, hslot, rfl⟩
                  show (jsGet (filterOutIndex s.playlist i)
                    (((filterOutIndex s.playlist i).length : ℤ) - 1)).join = some e
                  rw [hslot]
                  rfl
                · intro hnone
                  have hj : (jsGet (filterOutIndex s.playlist i)
                      (((filterOutIndex s.playlist i).length : ℤ) - 1)).join = none := hnone
                  rw [hslot] at hj
                  exact absurd hj (by simp)
      · obtain ⟨e, e', hee, hgl, hid⟩ := hpair cur hix
        have hcb := hc cur hix
        by_cases hlt : i < cur
        · rw [removeFromPlaylist_spec_before hix hic hlt] at hcr ⊢
          refine ⟨hcr, ?_, ?_, ?_⟩
          · intro x hx
            exact hs x (hsub x hx)
          · intro k hk
            obtain rfl : cur - 1 = k := Option.some_injective _ hk
            refine ⟨e, e', hee, ?_, hid⟩
            show jsGet (filterOutIndex s.playlist i) (cur - 1) = some (some e')
            rw [jsGet_nonneg _ (by omega), filterOutIndex_getElem? h0 h1,
              if_neg (by omega)]
            rw [jsGet_nonneg _ (by omega)] at hgl
            rw [show (cur - 1).toNat + 1 = cur.toNat by omega]
            exact hgl
          · intro hnone
            have hcen : s.currentEpisode = none := hnone
            exfalso
            rw [hemp hcen] at h1
            simp at h1
            omega
        · rw [removeFromPlaylist_spec_after hix hic hlt] at hcr ⊢
          refine ⟨hcr, ?_, ?_, ?_⟩
          · intro x hx
            exact hs x (hsub x hx)
          · intro k hk
            obtain rfl : cur = k := Option.some_injective _ hk
            refine ⟨e, e', hee, ?_, hid⟩
            show jsGet (filterOutIndex s.playlist i) cur = some (some e')
            rw [jsGet_nonneg _ (by omega), filterOutIndex_getElem? h0 h1,
              if_pos (by omega)]
            rw [jsGet_nonneg _ (by omega)] at hgl
            exact hgl
          · intro hnone
            have hcen : s.currentEpisode = none := hnone
            exfalso
            rw [hemp hcen] at h1
            simp at h1
            omega

/-! ### Structure of an in-range `moveInPlaylist` and its Inv10 -/

theorem moveCore_inRange {l : List Slot} {f t : ℤ} (hf0 : 0 ≤ f)
    (hf1 : f < (l.length : ℤ)) (ht0 : 0 ≤ t) (ht1 : t < (l.length : ℤ)) :
    spliceInsert (spliceRemoveOne l f).1 t (spliceRemoveOne l f).2.join =
      (l.take f.toNat ++ l.drop (f.toNat + 1)).take t.toNat ++ [(l[f.toNat]?).join] ++
        (l.take f.toNat ++ l.drop (f.toNat + 1)).drop t.toNat := by
  have hr1 : (spliceRemoveOne l f).1 = l.take f.toNat ++ l.drop (f.toNat + 1) := by
    unfold spliceRemoveOne
    rw [spliceStart_inRange hf0 hf1]
  have hr2 : (spliceRemoveOne l f).2 = l[f.toNat]? := by
    unfold spliceRemoveOne
    rw [spliceStart_inRange hf0 hf1]
  have hElen : (l.take f.toNat ++ l.drop (f.toNat + 1)).length = l.length - 1 := by
    simp only [List.length_append, List.length_take, List.length_drop]
    omega
  rw [hr1, hr2]
  unfold spliceInsert
  rw [spliceStart_toNat_le ht0 (by rw [hElen]; omega)]

theorem move_length {l : List Slot} {f t : ℤ} (hf0 : 0 ≤ f)
    (hf1 : f < (l.length : ℤ)) (ht0 : 0 ≤ t) (ht1 : t < (l.length : ℤ)) :
    (spliceInsert (spliceRemoveOne l f).1 t (spliceRemoveOne l f).2.join).length =
      l.length := by
  rw [length_spliceInsert]
  unfold spliceRemoveOne
  rw [spliceStart_inRange hf0 hf1]
  simp only [List.length_append, List.length_take, List.length_drop]
  omega

/-- The element of the moved list at any position `k`, in terms of the
original list. -/
theorem move_getElem? {l : List Slot} {f t : ℤ} (hf0 : 0 ≤ f)
    (hf1 : f < (l.length : ℤ)) (ht0 : 0 ≤ t) (ht1 : t < (l.length : ℤ)) (k : ℕ) :
    (spliceInsert (spliceRemoveOne l f).1 t (spliceRemoveOne l f).2.join)[k]? =
      if k < t.toNat then (if k < f.toNat then l[k]? else l[k + 1]?)
      else if k = t.toNat then l[f.toNat]?
      else if k - 1 < f.toNat then l[k - 1]? else l[k]? := by
  have hf' : f.toNat < l.length := by omega
  have hElen : (l.take f.toNat ++ l.drop (f.toNat + 1)).length = l.length - 1 := by
    simp only [List.length_append, List.length_take, List.length_drop]
    omega
  have hjoin : (l[f.toNat]?).join = l[f.toNat] := by
    rw [List.getElem?_eq_getElem hf']
    rfl
  rw [moveCore_inRange hf0 hf1 ht0 ht1,
    insertAt_getElem? _ t.toNat _ (by rw [hElen]; omega) k]
  rw [eraseAt_getElem? l f.toNat k hf', eraseAt_getElem? l f.toNat (k - 1) hf', hjoin]
  rw [List.getElem?_eq_getElem hf']
  split_ifs <;> first
    | rfl
    | omega
    | (congr 1 <;> omega)

theorem moveInPlaylist_inv10 {f t : ℤ} {s : PlayerState} (h : Inv10 s)
    (hf0 : 0 ≤ f) (hf1 : f < (s.playlist.length : ℤ))
    (ht0 : 0 ≤ t) (ht1 : t < (s.playlist.length : ℤ)) :
    Inv10 (moveInPlaylist f t s) := by
  obtain ⟨hc, hs, hpair, hemp⟩ := h
  have hcr := moveInPlaylist_cursor hc hf0 hf1 ht0 ht1
  have hplel : (moveInPlaylist f t s).playlist =
      spliceInsert (spliceRemoveOne s.playlist f).1 t
        (spliceRemoveOne s.playlist f).2.join := rfl
  have hsub : ∀ x ∈ (moveInPlaylist f t s).playlist, x ∈ s.playlist := by
    intro x hx
    rw [hplel, moveCore_inRange hf0 hf1 ht0 ht1] at hx
    have hf' : f.toNat < s.playlist.length := by omega
    rcases List.mem_append.mp hx with hx | hx
    · rcases List.mem_append.mp hx with hx | hx
      · have := List.take_subset _ _ hx
        rcases List.mem_append.mp this with hy | hy
        · exact List.take_subset _ _ hy
        · exact List.drop_subset _ _ hy
      · simp only [List.mem_singleton] at hx
        subst hx
        rw [List.getElem?_eq_getElem hf']
        exact List.getElem_mem hf'
    · have := List.drop_subset _ _ hx
      rcases List.mem_append.mp this with hy | hy
      · exact List.take_subset _ _ hy
      · exact List.drop_subset _ _ hy
  refine ⟨hcr, ?_, ?_, ?_⟩
  · intro x hx
    exact hs x (hsub x hx)
  · intro k hk
    cases hix : s.currentEpisodeIndex with
    | none =>
        have : (moveInPlaylist f t s).currentEpisodeIndex = none := by
          simp only [moveInPlaylist, hix]
        rw [this] at hk
        exact absurd hk (by simp)
    | some cur =>
        obtain ⟨e, e', hee, hgl, hid⟩ := hpair cur hix
        have hcb := hc cur hix
        rw [jsGet_nonneg _ (by omega)] at hgl
        have hee' : (moveInPlaylist f t s).currentEpisode = s.currentEpisode := rfl
        have hiv : (moveInPlaylist f t s).currentEpisodeIndex =
            (if cur = f then some t
             else if (f < cur ∧ cur ≤ t) ∨ (cur < f ∧ t ≤ cur) then
               some (cur + (if f < t then -1 else 1))
             else some cur) := by
          simp only [moveInPlaylist, hix]
        rw [hiv] at hk
        refine ⟨e, e', hee' ▸ hee, ?_, hid⟩
        rw [hplel]
        split_ifs at hk with hcf hsh hft hft
        · obtain rfl : t = k := Option.some_injective _ hk
          rw [jsGet_nonneg _ ht0, move_getElem? hf0 hf1 ht0 ht1, if_neg (by omega),
            if_pos rfl, show f.toNat = cur.toNat by omega]
          exact hgl
        · obtain rfl : cur + -1 = k := Option.some_injective _ hk
          rw [jsGet_nonneg _ (by omega), move_getElem? hf0 hf1 ht0 ht1]
          rcases hsh with ⟨hfc, hct⟩ | ⟨hcf2, htc⟩
          · rw [if_pos (by omega), if_neg (by omega),
              show (cur + -1).toNat + 1 = cur.toNat by omega]
            exact hgl
          · exfalso
            omega
        · obtain rfl : cur + 1 = k := Option.some_injective _ hk
          rw [jsGet_nonneg _ (by omega), move_getElem? hf0 hf1 ht0 ht1]
          rcases hsh with ⟨hfc, hct⟩ | ⟨hcf2, htc⟩
          · exfalso
            omega
          · rw [if_neg (by omega), if_neg (by omega), if_pos (by omega),
              show (cur + 1).toNat - 1 = cur.toNat by omega]
            exact hgl
        · obtain rfl : cur = k := Option.some_injective _ hk
          rw [jsGet_nonneg _ (by omega), move_getElem? hf0 hf1 ht0 ht1]
          push_neg at hsh
          by_cases hclt : cur < t
          · rw [if_pos (by omega), if_pos (by omega)]
            exact hgl
          · by_cases hcgt : cur = t
            · exfalso
              omega
            · rw [if_neg (by omega), if_neg (by omega), if_neg (by omega)]
              exact hgl
  · intro hnone
    have hcen : s.currentEpisode = none := hnone
    exfalso
    rw [hemp hcen] at hf1
    simp at hf1
    omega

theorem endedEvent_inv10 {s : PlayerState} (h : Inv10 s) :
    Inv10 (endedEvent s).1 := by
  obtain ⟨hp, hi, he, -⟩ := markAsCompleted_fields s
  have h1 : Inv10 (markAsCompleted s).1 := inv10_congr h hp hi he
  simp only [endedEvent]
  cases hix : (markAsCompleted s).1.currentEpisodeIndex with
  | none =>
      simp only [hix]
      exact inv10_congr h1 rfl hix.symm rfl
  | some cur =>
      simp only [hix]
      split_ifs with hc
      · cases hget : jsGet (markAsCompleted s).1.playlist (cur + 1) with
        | none =>
            simp only [hget]
            exact h1
        | some slot =>
            cases slot with
            | none =>
                simp only [hget]
                exact h1
            | some e =>
                simp only [hget]
                refine skipToNext_inv10 (inv10_congr h1 rfl ?_ rfl)
                rw [hix]
                norm_num
      · exact inv10_congr h1 rfl hix.symm rfl

theorem step_inv10 {s : PlayerState} (it : Intent) (h : Inv10 s)
    (hv : ValidIntent s it) (hnr : it ≠ Intent.resetShowState) :
    Inv10 (step it s) := by
  cases it with
  | togglePlayPause => exact togglePlayPause_inv10 h
  | playEpisode a b c d e => exact playEpisode_inv10 a b c d e h
  | addToPlaylist a b c d e => exact addToPlaylist_inv10 a b c d e h
  | removeFromPlaylist i => exact removeFromPlaylist_inv10 h hv.1 hv.2
  | moveInPlaylist f t => exact moveInPlaylist_inv10 h hv.1 hv.2.1 hv.2.2.1 hv.2.2.2
  | clearPlaylist => exact clearPlaylist_inv10 h
  | skipToNext => exact skipToNext_inv10 h
  | skipToPrevious => exact skipToPrevious_inv10 h
  | skipForward x =>
      show Inv10 (skipForward x s).1
      cases hce : s.currentEpisode with
      | none => simpa [skipForward, hce] using h
      | some e =>
          simp only [skipForward, hce]
          exact inv10_congr h rfl rfl hce.symm
  | skipBackward x =>
      show Inv10 (skipBackward x s).1
      cases hce : s.currentEpisode with
      | none => simpa [skipBackward, hce] using h
      | some e =>
          simp only [skipBackward, hce]
          exact inv10_congr h rfl rfl hce.symm
  | setCurrentTime t => exact inv10_congr h rfl rfl rfl
  | setDuration d => exact inv10_congr h rfl rfl rfl
  | setVolume v => exact inv10_congr h rfl rfl rfl
  | toggleMute => exact inv10_congr h rfl rfl rfl
  | setPlaybackRate r => exact inv10_congr h rfl rfl rfl
  | setSleepTimer m now =>
      show Inv10 (setSleepTimer m now s)
      cases m <;> simp only [setSleepTimer] <;> exact inv10_congr h rfl rfl rfl
  | markAsCompleted =>
      obtain ⟨hp, hi, he, -⟩ := markAsCompleted_fields s
      exact inv10_congr h hp hi he
  | saveProgress t =>
      obtain ⟨hp, hi, he⟩ := saveProgress_fields t s
      exact inv10_congr h hp hi he
  | resetShowState => exact absurd rfl hnr
  | ended => exact endedEvent_inv10 h
  | engineError => exact inv10_congr h rfl rfl rfl

theorem reachableNR_inv10 {s : PlayerState} (h : ReachableNR s) : Inv10 s := by
  induction h with
  | init v r ce ep =>
      refine ⟨?_, ?_, ?_, ?_⟩
      · intro c hc
        simp [initState] at hc
      · intro x hx
        simp [initState] at hx
      · intro c hc
        simp [initState] at hc
      · intro _
        rfl
  | next hr hv ih => exact step_inv10 _ ih hv.1 hv.2

/-! ## Identity uniqueness under Enqueue/PlayNow sequences -/

/-- Intents consisting only of `addToPlaylist` (Enqueue) and
`playEpisode` (PlayNow) calls. -/
def enqPlayOnly : Intent → Prop
  | Intent.addToPlaylist _ _ _ _ _ => True
  | Intent.playEpisode _ _ _ _ _ => True
  | _ => False

/-- States reachable from the initial state by Enqueue/PlayNow calls
alone. -/
def ReachableEnq : PlayerState → Prop :=
  ReachableFrom fun _ it => enqPlayOnly it

theorem slotMatches_iff_identOf {sid : String} {sn en : ℤ} {e : PlayerEpisode} :
    slotMatches sid sn en (some e) = true ↔ identOf e = (sid, sn, en) := by
  simp [slotMatches, identOf, Prod.ext_iff]

theorem queueIdentsNodup_append {l : List Slot} {item : PlayerEpisode}
    (h : queueIdentsNodup l)
    (hx : ∀ a ∈ l, ∀ ea, a = some ea → identOf ea ≠ identOf item) :
    queueIdentsNodup (l ++ [some item]) := by
  rw [queueIdentsNodup, List.pairwise_append]
  refine ⟨h, List.pairwise_singleton _ _, ?_⟩
  intro a ha b hb ea eb hea heb
  simp only [List.mem_singleton] at hb
  subst hb
  obtain rfl : item = eb := Option.some_injective _ heb
  exact hx a ha ea hea

theorem addToPlaylist_nodup (a b : String) (c : ℤ) (d : String) (ep : Episode)
    {s : PlayerState} (h : queueIdentsNodup s.playlist) :
    queueIdentsNodup (addToPlaylist a b c d ep s).playlist := by
  by_cases hdup : s.playlist.any (slotMatches a c ep.episode) = true
  · rw [addToPlaylist_dup a b c d ep s hdup]
    exact h
  · have hdup' : ∀ x ∈ s.playlist, ¬slotMatches a c ep.episode x = true := by
      intro x hx hm
      exact hdup (List.any_eq_true.mpr ⟨x, hx, hm⟩)
    have hplaylist : (addToPlaylist a b c d ep s).playlist =
        s.playlist ++ [some ⟨a, b, c, d, ep⟩] := by
      cases hce : s.currentEpisode with
      | none => rw [addToPlaylist_new_noneCur a b c d ep s (by simpa using hdup) hce]
      | some e => rw [addToPlaylist_new_someCur a b c d ep s (by simpa using hdup) hce]
    rw [hplaylist]
    refine queueIdentsNodup_append h ?_
    intro x hx ea hea heq
    refine hdup' x hx ?_
    subst hea
    rw [slotMatches_iff_identOf, heq]
    rfl

theorem playEpisode_nodup (a b : String) (c : ℤ) (d : String) (ep : Episode)
    {s : PlayerState} (h : queueIdentsNodup s.playlist) :
    queueIdentsNodup (playEpisode a b c d ep s).1.playlist := by
  rcases hfi : s.playlist.findIdx? (slotMatches a c ep.episode) with _ | n
  · obtain ⟨hp, -, -, -⟩ := playEpisode_notFound a b c d ep s hfi
    rw [hp]
    have hdup' := findIdx?_none_spec hfi
    refine queueIdentsNodup_append h ?_
    intro x hx ea hea heq
    refine hdup' x hx ?_
    subst hea
    rw [slotMatches_iff_identOf, heq]
    rfl
  · obtain ⟨hp, -, -, -⟩ := playEpisode_found a b c d ep s hfi
    rw [hp]
    exact h

theorem reachableEnq_nodup {s : PlayerState} (h : ReachableEnq s) :
    queueIdentsNodup s.playlist := by
  induction h with
  | init v r ce ep => exact List.Pairwise.nil
  | next hr hv ih =>
      rename_i s' it
      cases it <;> first
        | (rename_i a b c d e
           exact addToPlaylist_nodup a b c d e ih)
        | (rename_i a b c d e
           exact playEpisode_nodup a b c d e ih)
        | exact hv.elim

/-! ## Remaining branch characterizations -/

theorem markAsCompleted_spec {s : PlayerState} {ce : PlayerEpisode}
    (hce : s.currentEpisode = some ce) :
    markAsCompleted s =
      ({ s with completedEpisodes := fun k =>
            if k = getEpisodeKey ce.showId ce.seasonNumber ce.episode.episode then true
            else s.completedEpisodes k },
       [Effect.write "codecast_completed_episodes"]) := by
  simp [markAsCompleted, markAsCompletedRun, hce]

/-! ## Concrete fixtures used by witnesses and counterexamples -/

/-- A concrete catalog episode with a playable URI. -/
def epA : Episode := ⟨1, "Episode Alpha", "first", "https://cdn.example/a.mp3"⟩

/-- A second concrete episode, distinct identity from `epA`. -/
def epB : Episode := ⟨2, "Episode Beta", "second", "https://cdn.example/b.mp3"⟩

/-- Entry `epA` with its show/season context. -/
def itemA : PlayerEpisode := ⟨"show1", "Show One", 1, "Season 1", epA⟩

/-- Entry `epB` with its show/season context. -/
def itemB : PlayerEpisode := ⟨"show1", "Show One", 1, "Season 1", epB⟩

/-- Empty persisted completion map. -/
def noCompleted : String → Bool := fun _ => false

/-- Empty persisted progress map. -/
def noProgress : String → Option ℚ := fun _ => none

/-- The store's state on first load with empty persisted storage. -/
def s0 : PlayerState := initState 0.8 1 noCompleted noProgress

/-- A state playing entry 0 of the queue `[itemA, itemB]`. -/
def sAB : PlayerState :=
  { s0 with playlist := [some itemA, some itemB], currentEpisodeIndex := some 0,
            currentEpisode := some itemA, isPlaying := true }

/-! ## Claims -/

/-- Single-step reachability with the intent given explicitly. -/
theorem reachable_step_of {P : PlayerState → Intent → Prop} {s : PlayerState}
    (it : Intent) (h : ReachableFrom P s) (hp : P s it) : ReachableFrom P (step it s) :=
  ReachableFrom.next h hp

/-- C1, counterexample: the claim "status ≠ Stopped ⇒ cursor ≠ none" is
false on the code.  From the initial state, a single `togglePlayPause` on
an empty queue reaches a state with `isPlaying = true` and
`currentEpisodeIndex = none`. -/
theorem claimC1_counterexample :
    Reachable (step Intent.togglePlayPause s0) ∧
    (step Intent.togglePlayPause s0).isPlaying = true ∧
    (step Intent.togglePlayPause s0).currentEpisodeIndex = none := by
  refine ⟨reachable_step_of Intent.togglePlayPause
    (ReachableFrom.init 0.8 1 noCompleted noProgress) trivial, ?_, ?_⟩ <;> rfl

/-- C1, amended: over all states reachable by the §4.2 intents and engine
events (queue indices in range), a set cursor is always a valid queue
index: `currentEpisodeIndex = some c → 0 ≤ c < len(queue)`.  The first
half of the original claim (`isPlaying → cursor ≠ none`) is refuted by
the counterexample. -/
theorem claimC1_cursor_invariant (s : PlayerState) (h : Reachable s) (c : ℤ)
    (hc : s.currentEpisodeIndex = some c) :
    0 ≤ c ∧ c < (s.playlist.length : ℤ) :=
  reachable_cursorInRange h c hc

/-- C1, witness: the amended invariant evaluated at a concrete reachable
state with a set cursor. -/
theorem claimC1_witness :
    0 ≤ (0 : ℤ) ∧ (0 : ℤ) <
      ((step (Intent.addToPlaylist "show1" "Show One" 1 "Season 1" epA) s0).playlist.length : ℤ) :=
  claimC1_cursor_invariant _
    (reachable_step_of (Intent.addToPlaylist "show1" "Show One" 1 "Season 1" epA)
      (ReachableFrom.init 0.8 1 noCompleted noProgress) trivial) 0 rfl

/-- C10, counterexample: the pair `(currentEpisode, currentEpisodeIndex)`
is not kept consistent by every operation: after `playEpisode` of a first
episode, `resetShowState` nulls `currentEpisode` but leaves
`currentEpisodeIndex = some 0`. -/
theorem claimC10_counterexample :
    (resetShowState (playEpisode "show1" "Show One" 1 "Season 1" epA s0).1).currentEpisodeIndex =
      some 0 ∧
    (resetShowState (playEpisode "show1" "Show One" 1 "Season 1" epA s0).1).currentEpisode =
      none := by
  constructor <;> rfl

/-- C10, amended: for every state reachable without `resetShowState`
(and with in-range queue indices), a set cursor implies a non-null
`currentEpisode` whose identity matches the queue entry under the cursor
(`playEpisode` with an already-queued identity keeps the original entry
object in the queue while `currentEpisode` receives the fresh snapshot,
so the consistency is at identity level, not object level). -/
theorem claimC10_pair_consistency (s : PlayerState) (h : ReachableNR s) (c : ℤ)
    (hc : s.currentEpisodeIndex = some c) :
    ∃ e e', s.currentEpisode = some e ∧ jsGet s.playlist c = some (some e') ∧
      identOf e' = identOf e :=
  (reachableNR_inv10 h).2.2.1 c hc

/-- C10, witness: the amended consistency at a concrete state reached by
one `addToPlaylist`. -/
theorem claimC10_witness :
    ∃ e e',
      (step (Intent.addToPlaylist "show1" "Show One" 1 "Season 1" epA) s0).currentEpisode =
        some e ∧
      jsGet (step (Intent.addToPlaylist "show1" "Show One" 1 "Season 1" epA) s0).playlist 0 =
        some (some e') ∧
      identOf e' = identOf e :=
  claimC10_pair_consistency _
    (reachable_step_of (Intent.addToPlaylist "show1" "Show One" 1 "Season 1" epA)
      (ReachableFrom.init 0.8 1 noCompleted noProgress)
      ⟨trivial, fun h => Intent.noConfusion h⟩) 0 rfl

/-- C4: under any sequence of `addToPlaylist` (Enqueue) and `playEpisode`
(PlayNow) calls from the initial state, the queue never holds two entries
with equal identity triple `(showId, seasonNumber, episodeNumber)`; and
enqueueing an identity already in the queue leaves the whole state
unchanged (silent drop, no error). -/
theorem claimC4_identity_uniqueness :
    (∀ s : PlayerState, ReachableEnq s → queueIdentsNodup s.playlist) ∧
    (∀ (a b : String) (c : ℤ) (d : String) (ep : Episode) (s : PlayerState),
      s.playlist.any (slotMatches a c ep.episode) = true →
      addToPlaylist a b c d ep s = s) :=
  ⟨fun _ h => reachableEnq_nodup h,
   fun a b c d ep s hdup => addToPlaylist_dup a b c d ep s hdup⟩

/-- C4, witness: both halves at a concrete state holding `itemA`. -/
theorem claimC4_witness :
    queueIdentsNodup
      (step (Intent.addToPlaylist "show1" "Show One" 1 "Season 1" epA) s0).playlist ∧
    addToPlaylist "show1" "Show One" 1 "Season 1" epA
        (step (Intent.addToPlaylist "show1" "Show One" 1 "Season 1" epA) s0) =
      step (Intent.addToPlaylist "show1" "Show One" 1 "Season 1" epA) s0 :=
  ⟨claimC4_identity_uniqueness.1 _
      (reachable_step_of (Intent.addToPlaylist "show1" "Show One" 1 "Season 1" epA)
        (ReachableFrom.init 0.8 1 noCompleted noProgress) trivial),
   claimC4_identity_uniqueness.2 "show1" "Show One" 1 "Season 1" epA _ (by decide)⟩

/-- C8, counterexample: out-of-range indices are not rejected.
`moveInPlaylist(-1, 0)` on the queue `[itemA, itemB]` with cursor `0`
moves the LAST entry to the front (JS `splice` counts a negative index
from the end) and leaves the cursor at `-1` — the state changes. -/
theorem claimC8_counterexample :
    sAB.playlist = [some itemA, some itemB] ∧ sAB.currentEpisodeIndex = some 0 ∧
    (moveInPlaylist (-1) 0 sAB).playlist = [some itemB, some itemA] ∧
    (moveInPlaylist (-1) 0 sAB).currentEpisodeIndex = some (-1) := by
  refine ⟨rfl, rfl, ?_, ?_⟩ <;> decide

/-- C8, amended: `removeFromPlaylist` with an index at or past the end of
the queue leaves the state unchanged (a true no-op, and the function is
total, so it never crashes); but out-of-range indices in general are not
rejected: a negative index still decrements a set cursor without removing
anything, and `moveInPlaylist` performs no bounds check at all (its
`splice` calls interpret negative indices from the end of the array and
an out-of-range `fromIndex` inserts an undefined slot into the queue). -/
theorem claimC8_out_of_range :
    (∀ (i : ℤ) (s : PlayerState), cursorInRange s → (s.playlist.length : ℤ) ≤ i →
      removeFromPlaylist i s = s) ∧
    (∀ (i : ℤ) (s : PlayerState) (cur : ℤ), i < 0 → s.currentEpisodeIndex = some cur →
      0 ≤ cur →
      removeFromPlaylist i s = { s with currentEpisodeIndex := some (cur - 1) }) := by
  constructor
  · intro i s hcr hi
    have hfo : filterOutIndex s.playlist i = s.playlist :=
      filterOutIndex_out s.playlist i (Or.inr hi)
    cases hix : s.currentEpisodeIndex with
    | none =>
        rw [removeFromPlaylist_spec_noneIdx hix, hfo, ← hix]
    | some cur =>
        have hcb := hcr cur hix
        rw [removeFromPlaylist_spec_after hix (by omega) (by omega), hfo, ← hix]
  · intro i s cur hi hix hcur
    have hfo : filterOutIndex s.playlist i = s.playlist :=
      filterOutIndex_out s.playlist i (Or.inl hi)
    rw [removeFromPlaylist_spec_before hix (by omega) (by omega), hfo]

/-- C8, witness: the amended statements at concrete inputs —
`removeFromPlaylist 5` on the two-entry queue is a no-op, and
`removeFromPlaylist (-1)` decrements the cursor. -/
theorem claimC8_witness :
    removeFromPlaylist 5 sAB = sAB ∧
    removeFromPlaylist (-1) sAB = { sAB with currentEpisodeIndex := some (0 - 1) } :=
  ⟨claimC8_out_of_range.1 5 sAB
      (fun c hc => by cases Option.some_injective _ hc; decide) (by decide),
   claimC8_out_of_range.2 (-1) sAB 0 (by decide) rfl le_rfl⟩

/-- C9, counterexample: a failing persistence write is not swallowed.
With the storage throwing, `saveProgress` on a state 20 seconds into
`itemA` lets the exception escape (the thrown flag is set) even though
the in-memory progress map was already updated. -/
theorem claimC9_counterexample :
    (saveProgressRun 25 false { sAB with currentTime := 20 }).2.2 = true ∧
    (saveProgressRun 25 false { sAB with currentTime := 20 }).1.episodeProgress
      (getEpisodeKey "show1" 1 1) = some 25 := by
  constructor <;> decide

/-- C9, amended: the three persistence sites have no try/catch, so when
the storage write throws the exception propagates out of the operation;
the in-memory update, performed before the write, remains in effect
(and for `setVolume` the engine-volume call after the write is never
reached). -/
theorem claimC9_storage_failure :
    (∀ (audioNow : ℚ) (s : PlayerState) (ce : PlayerEpisode),
      s.currentEpisode = some ce → 10 ≤ s.currentTime →
      (saveProgressRun audioNow false s).2.2 = true ∧
      (saveProgressRun audioNow false s).1.episodeProgress
        (getEpisodeKey ce.showId ce.seasonNumber ce.episode.episode) =
          some (if 0 < audioNow then audioNow else s.currentTime)) ∧
    (∀ (s : PlayerState) (ce : PlayerEpisode), s.currentEpisode = some ce →
      (markAsCompletedRun false s).2.2 = true ∧
      (markAsCompletedRun false s).1.completedEpisodes
        (getEpisodeKey ce.showId ce.seasonNumber ce.episode.episode) = true) ∧
    (∀ (v : ℚ) (s : PlayerState),
      (setVolumeRun v false s).2.2 = true ∧
      (setVolumeRun v false s).1.volume = v ∧
      (setVolumeRun v false s).2.1 = []) := by
  refine ⟨?_, ?_, ?_⟩
  · intro audioNow s ce hce h10
    have hlt : ¬s.currentTime < 10 := not_lt.mpr h10
    simp [saveProgressRun, hce, hlt]
  · intro s ce hce
    simp [markAsCompletedRun, hce]
  · intro v s
    simp [setVolumeRun]

/-- C9, witness: the amended behavior at a concrete failing write. -/
theorem claimC9_witness :
    ((saveProgressRun 25 false { sAB with currentTime := 20 }).2.2 = true ∧
      (saveProgressRun 25 false { sAB with currentTime := 20 }).1.episodeProgress
        (getEpisodeKey itemA.showId itemA.seasonNumber itemA.episode.episode) =
          some (if (0 : ℚ) < 25 then 25 else (20 : ℚ))) ∧
    ((markAsCompletedRun false sAB).2.2 = true ∧
      (markAsCompletedRun false sAB).1.completedEpisodes
        (getEpisodeKey itemA.showId itemA.seasonNumber itemA.episode.episode) = true) ∧
    ((setVolumeRun 0.4 false sAB).2.2 = true ∧
      (setVolumeRun 0.4 false sAB).1.volume = 0.4 ∧
      (setVolumeRun 0.4 false sAB).2.1 = []) :=
  ⟨claimC9_storage_failure.1 25 _ itemA rfl (show (10 : ℚ) ≤ 20 by norm_num),
   claimC9_storage_failure.2.1 _ itemA rfl,
   claimC9_storage_failure.2.2 0.4 sAB⟩

/-- C7, counterexample: after `setVolume(0.6)`, the first `toggleMute`
does not move the `volume` field to `0` — the field stays `0.6`; only the
numeric `isMuted` field changes (it receives the pre-mute volume). -/
theorem claimC7_counterexample :
    (toggleMute (setVolume 0.6 s0).1).1.volume = 0.6 ∧
    ¬(toggleMute (setVolume 0.6 s0).1).1.volume = 0 ∧
    (toggleMute (setVolume 0.6 s0).1).1.isMuted = 0.6 := by
  refine ⟨?_, ?_, ?_⟩ <;>
    simp [toggleMute, setVolume, setVolumeRun, s0, initState] <;> norm_num

/-- C7, amended: `toggleMute` never touches the `volume` field and there
is no `preMuteVolume`/`0.75` default in this store.  Instead it swaps the
numeric `isMuted` field between `0` and the current volume and pushes
that value to the engine: starting unmuted (`isMuted = 0`) after
`setVolume v` (`v > 0`), the first toggle sets `isMuted := v` (engine
volume call `v` — audibly nothing changes) and the second sets
`isMuted := 0` (engine volume call `0`), with `volume = v` throughout.
(The UI layer separately drives the effective engine volume to `0` while
`isMuted ≠ 0`.) -/
theorem claimC7_toggleMute (s : PlayerState) (v : ℚ) (hv : 0 < v)
    (hm : s.isMuted = 0) :
    (setVolume v s).1.volume = v ∧
    (toggleMute (setVolume v s).1).1.volume = v ∧
    (toggleMute (setVolume v s).1).1.isMuted = v ∧
    (toggleMute (setVolume v s).1).2 = [Effect.engineVolume v] ∧
    (toggleMute (toggleMute (setVolume v s).1).1).1.volume = v ∧
    (toggleMute (toggleMute (setVolume v s).1).1).1.isMuted = 0 ∧
    (toggleMute (toggleMute (setVolume v s).1).1).2 = [Effect.engineVolume 0] := by
  have hv0 : ¬v = 0 := by positivity
  simp [setVolume, setVolumeRun, toggleMute, hm, hv0]

/-- C7, witness: the amended behavior at `v = 0.6`. -/
theorem claimC7_witness :
    (setVolume 0.6 s0).1.volume = 0.6 ∧
    (toggleMute (setVolume 0.6 s0).1).1.volume = 0.6 ∧
    (toggleMute (setVolume 0.6 s0).1).1.isMuted = 0.6 ∧
    (toggleMute (setVolume 0.6 s0).1).2 = [Effect.engineVolume 0.6] ∧
    (toggleMute (toggleMute (setVolume 0.6 s0).1).1).1.volume = 0.6 ∧
    (toggleMute (toggleMute (setVolume 0.6 s0).1).1).1.isMuted = 0 ∧
    (toggleMute (toggleMute (setVolume 0.6 s0).1).1).2 = [Effect.engineVolume 0] :=
  claimC7_toggleMute s0 0.6 (by norm_num) rfl

/-- A state playing entry 1 (of 2) with `currentTime = 2.9`. -/
def sPrev : PlayerState :=
  { sAB with currentEpisodeIndex := some 1, currentEpisode := some itemB,
             currentTime := 2.9 }

/-- C5, counterexample: at `positionSeconds = 2.9` the code does NOT
restart the current track — `2.9 > 3` is false, so `skipToPrevious` goes
to the previous entry: the cursor moves from `1` to `0` (the claim says
the cursor is unchanged at `2.9`). -/
theorem claimC5_counterexample :
    sPrev.currentTime = 2.9 ∧ sPrev.currentEpisodeIndex = some 1 ∧
    (skipToPrevious sPrev).1.currentEpisodeIndex = some 0 ∧
    (skipToPrevious sPrev).1.currentTime = 0 := by
  have h3 : ¬(3 : ℚ) < sPrev.currentTime := by
    show ¬(3 : ℚ) < 2.9
    norm_num
  have hs := skipToPrevious_spec_prev h3 (by decide) rfl (by decide)
  refine ⟨rfl, rfl, ?_, ?_⟩ <;> rw [hs] <;> rfl

/-- C5, amended (the two cases of §8 are swapped to match the code and
§4.2): at `positionSeconds = 2.9` (≤ 3) with `cursor > 0`,
`skipToPrevious` moves to `cursor - 1` (position 0, playing); at
`positionSeconds = 3.1` (> 3) it restarts the current track — position
`0`, cursor unchanged, `seek(0)` issued. -/
theorem claimC5_previous_threshold :
    (∀ (s : PlayerState) (cur : ℤ), s.currentTime = 2.9 →
      s.currentEpisodeIndex = some cur → 0 < cur → cur < (s.playlist.length : ℤ) →
      (skipToPrevious s).1.currentEpisodeIndex = some (cur - 1) ∧
      (skipToPrevious s).1.currentTime = 0 ∧
      (skipToPrevious s).1.isPlaying = true) ∧
    (∀ s : PlayerState, s.currentTime = 3.1 →
      (skipToPrevious s).1.currentTime = 0 ∧
      (skipToPrevious s).1.currentEpisodeIndex = s.currentEpisodeIndex ∧
      (skipToPrevious s).2 = [Effect.seek 0]) := by
  constructor
  · intro s cur ht hix h0c hcl
    have h3 : ¬(3 : ℚ) < s.currentTime := by
      rw [ht]
      norm_num
    have h0 : ¬s.playlist.length = 0 := by omega
    have hc : ¬cur ≤ 0 := by omega
    rw [skipToPrevious_spec_prev h3 h0 hix hc]
    exact ⟨rfl, rfl, rfl⟩
  · intro s ht
    have h3 : (3 : ℚ) < s.currentTime := by
      rw [ht]
      norm_num
    rw [skipToPrevious_spec_restart h3]
    exact ⟨rfl, rfl, rfl⟩

/-- C5, witness: both amended cases at concrete states. -/
theorem claimC5_witness :
    ((skipToPrevious sPrev).1.currentEpisodeIndex = some (1 - 1) ∧
     (skipToPrevious sPrev).1.currentTime = 0 ∧
     (skipToPrevious sPrev).1.isPlaying = true) ∧
    ((skipToPrevious { sAB with currentTime := 3.1 }).1.currentTime = 0 ∧
     (skipToPrevious { sAB with currentTime := 3.1 }).1.currentEpisodeIndex =
       ({ sAB with currentTime := (3.1 : ℚ) } : PlayerState).currentEpisodeIndex ∧
     (skipToPrevious { sAB with currentTime := 3.1 }).2 = [Effect.seek 0]) :=
  ⟨claimC5_previous_threshold.1 sPrev 1 rfl rfl (by decide) (by decide),
   claimC5_previous_threshold.2 _ rfl⟩

/-- A queue `[itemA]` with no current episode and no cursor. -/
def sNoCur : PlayerState := { s0 with playlist := [some itemA] }

/-- C6, counterexample: `skipToNext` is NOT a no-op when the cursor is
none: on a non-empty queue it selects entry 0, starts playing, and loads
its media. -/
theorem claimC6_counterexample :
    sNoCur.currentEpisodeIndex = none ∧
    (skipToNext sNoCur).1.currentEpisodeIndex = some 0 ∧
    (skipToNext sNoCur).1.isPlaying = true ∧
    (skipToNext sNoCur).2 = [Effect.load epA.file 0 true] := by
  exact ⟨rfl, rfl, rfl, rfl⟩

/-- C6, amended: `skipToNext` is a no-op (state and effects) when the
cursor is at the last index or the queue is empty; with the cursor none
and a non-empty queue it is NOT a no-op — it selects index 0, resets the
position, sets playing and loads the first entry; otherwise it moves to
`cursor + 1` with position 0, playing, loading the next entry. -/
theorem claimC6_skipToNext :
    (∀ (s : PlayerState) (cur : ℤ), s.currentEpisodeIndex = some cur →
      (s.playlist.length : ℤ) - 1 ≤ cur → skipToNext s = (s, [])) ∧
    (∀ s : PlayerState, s.playlist.length = 0 → skipToNext s = (s, [])) ∧
    (∀ s : PlayerState, ¬s.playlist.length = 0 → s.currentEpisodeIndex = none →
      (skipToNext s).1.currentEpisodeIndex = some 0 ∧
      (skipToNext s).1.currentTime = 0 ∧
      (skipToNext s).1.isPlaying = true ∧
      (skipToNext s).1.currentEpisode = (jsGet s.playlist 0).join ∧
      (skipToNext s).2 = loadIfFile ((jsGet s.playlist 0).join) 0) ∧
    (∀ (s : PlayerState) (cur : ℤ), s.currentEpisodeIndex = some cur → 0 ≤ cur →
      ¬((s.playlist.length : ℤ) - 1 ≤ cur) →
      (skipToNext s).1.currentEpisodeIndex = some (cur + 1) ∧
      (skipToNext s).1.currentTime = 0 ∧
      (skipToNext s).1.isPlaying = true ∧
      (skipToNext s).1.currentEpisode = (jsGet s.playlist (cur + 1)).join ∧
      (skipToNext s).2 = loadIfFile ((jsGet s.playlist (cur + 1)).join) 0) := by
  refine ⟨?_, ?_, ?_, ?_⟩
  · intro s cur hix hl
    by_cases h0 : s.playlist.length = 0
    · exact skipToNext_spec_empty h0
    · exact skipToNext_spec_last h0 hix hl
  · intro s h0
    exact skipToNext_spec_empty h0
  · intro s h0 hix
    rw [skipToNext_spec_none h0 hix]
    exact ⟨rfl, rfl, rfl, rfl, rfl⟩
  · intro s cur hix hc0 hl
    have h0 : ¬s.playlist.length = 0 := by omega
    rw [skipToNext_spec_adv h0 hix hl]
    exact ⟨rfl, rfl, rfl, rfl, rfl⟩

/-- The queue `[itemA, itemB]` with the cursor on its last entry. -/
def sLast : PlayerState :=
  { sAB with currentEpisodeIndex := some 1, currentEpisode := some itemB }

/-- C6, witness: the four amended cases at concrete states. -/
theorem claimC6_witness :
    skipToNext sLast = (sLast, []) ∧
    skipToNext s0 = (s0, []) ∧
    (skipToNext sNoCur).1.currentEpisodeIndex = some 0 ∧
    (skipToNext sAB).1.currentEpisodeIndex = some (0 + 1) :=
  ⟨claimC6_skipToNext.1 sLast 1 rfl (by decide),
   claimC6_skipToNext.2.1 s0 rfl,
   (claimC6_skipToNext.2.2.1 sNoCur (by decide) rfl).1,
   (claimC6_skipToNext.2.2.2 sAB 0 rfl le_rfl (by decide)).1⟩

/-- C3: `playEpisode` resumes from a stored ProgressRecord (`positionSeconds`
becomes the stored `t` at load time, `0 ≤ t ≤ duration`), starts at `0`
when no record exists, reuses an existing queue position when the
identity is already queued (no duplicate appended), and otherwise appends
and points the cursor at the new entry. -/
theorem playEpisode_currentTime (a b : String) (c : ℤ) (d : String) (ep : Episode)
    (s : PlayerState) :
    (playEpisode a b c d ep s).1.currentTime =
      match getEpisodeProgress a c ep.episode s with
      | some p => if 0 < p then p else 0
      | none => 0 := rfl

theorem playEpisode_effects (a b : String) (c : ℤ) (d : String) (ep : Episode)
    (s : PlayerState) :
    (playEpisode a b c d ep s).2 =
      (if ep.file ≠ "" then
        [Effect.load ep.file ((playEpisode a b c d ep s).1.currentTime) true]
      else []) := rfl

theorem claimC3_playNow_resume_dedup :
    (∀ (a b : String) (c : ℤ) (d : String) (ep : Episode) (s : PlayerState) (t : ℚ),
      s.episodeProgress (getEpisodeKey a c ep.episode) = some t → 0 ≤ t →
      t ≤ s.duration →
      (playEpisode a b c d ep s).1.currentTime = t ∧
      (ep.file ≠ "" → (playEpisode a b c d ep s).2 = [Effect.load ep.file t true])) ∧
    (∀ (a b : String) (c : ℤ) (d : String) (ep : Episode) (s : PlayerState),
      s.episodeProgress (getEpisodeKey a c ep.episode) = none →
      (playEpisode a b c d ep s).1.currentTime = 0) ∧
    (∀ (a b : String) (c : ℤ) (d : String) (ep : Episode) (s : PlayerState) (n : ℕ),
      s.playlist.findIdx? (slotMatches a c ep.episode) = some n →
      (playEpisode a b c d ep s).1.playlist = s.playlist ∧
      (playEpisode a b c d ep s).1.currentEpisodeIndex = some (n : ℤ)) ∧
    (∀ (a b : String) (c : ℤ) (d : String) (ep : Episode) (s : PlayerState),
      s.playlist.findIdx? (slotMatches a c ep.episode) = none →
      (playEpisode a b c d ep s).1.playlist = s.playlist ++ [some ⟨a, b, c, d, ep⟩] ∧
      (playEpisode a b c d ep s).1.currentEpisodeIndex =
        some (s.playlist.length : ℤ)) := by
  refine ⟨?_, ?_, ?_, ?_⟩
  · intro a b c d ep s t hrec ht0 htd
    have hpe : getEpisodeProgress a c ep.episode s = if t = 0 then none else some t := by
      simp only [getEpisodeProgress, hrec]
    have hst : (playEpisode a b c d ep s).1.currentTime = t := by
      rw [playEpisode_currentTime a b c d ep s, hpe]
      by_cases hz : t = 0
      · simp [hz]
      · have hlt : 0 < t := lt_of_le_of_ne ht0 (Ne.symm hz)
        simp [hz, hlt]
    refine ⟨hst, ?_⟩
    intro hfile
    rw [playEpisode_effects a b c d ep s, if_pos hfile, hst]
  · intro a b c d ep s hrec
    have hpe : getEpisodeProgress a c ep.episode s = none := by
      simp only [getEpisodeProgress, hrec]
    rw [playEpisode_currentTime a b c d ep s, hpe]
  · intro a b c d ep s n hfi
    obtain ⟨hp, hi, -, -⟩ := playEpisode_found a b c d ep s hfi
    exact ⟨hp, hi⟩
  · intro a b c d ep s hfi
    obtain ⟨hp, hi, -, -⟩ := playEpisode_notFound a b c d ep s hfi
    exact ⟨hp, hi⟩

/-- A state with a stored resume position of 42 seconds for `epA` of
`show1`, season 1, and a known duration of 100. -/
def sProg : PlayerState :=
  { s0 with duration := 100,
            episodeProgress := fun k =>
              if k = getEpisodeKey "show1" 1 1 then some 42 else none }

/-- C3, witness: all four cases at concrete inputs — resume at `t = 42`,
fresh start at `0`, deduplicated play of the queued `epA`, and append of
`epA` to an empty queue. -/
theorem claimC3_witness :
    ((playEpisode "show1" "Show One" 1 "Season 1" epA sProg).1.currentTime = 42 ∧
      (epA.file ≠ "" →
        (playEpisode "show1" "Show One" 1 "Season 1" epA sProg).2 =
          [Effect.load epA.file 42 true])) ∧
    (playEpisode "show1" "Show One" 1 "Season 1" epA s0).1.currentTime = 0 ∧
    ((playEpisode "show1" "Show One" 1 "Season 1" epA sAB).1.playlist = sAB.playlist ∧
      (playEpisode "show1" "Show One" 1 "Season 1" epA sAB).1.currentEpisodeIndex =
        some ((0 : ℕ) : ℤ)) ∧
    ((playEpisode "show1" "Show One" 1 "Season 1" epA s0).1.playlist =
        s0.playlist ++ [some ⟨"show1", "Show One", 1, "Season 1", epA⟩] ∧
      (playEpisode "show1" "Show One" 1 "Season 1" epA s0).1.currentEpisodeIndex =
        some (s0.playlist.length : ℤ)) :=
  ⟨claimC3_playNow_resume_dedup.1 "show1" "Show One" 1 "Season 1" epA sProg 42
      (by simp [sProg, epA]) (by norm_num) (show (42 : ℚ) ≤ 100 by norm_num),
   claimC3_playNow_resume_dedup.2.1 "show1" "Show One" 1 "Season 1" epA s0 rfl,
   claimC3_playNow_resume_dedup.2.2.1 "show1" "Show One" 1 "Season 1" epA sAB 0
     (by decide),
   claimC3_playNow_resume_dedup.2.2.2 "show1" "Show One" 1 "Season 1" epA s0 rfl⟩

/-! ### C2: the `ended` engine event -/

theorem endedEvent_spec_adv {s : PlayerState} {cur : ℤ} {e : PlayerEpisode}
    (hix1 : (markAsCompleted s).1.currentEpisodeIndex = some cur)
    (hc : 0 < (markAsCompleted s).1.playlist.length ∧
      cur < ((markAsCompleted s).1.playlist.length : ℤ) - 1)
    (hget : jsGet (markAsCompleted s).1.playlist (cur + 1) = some (some e)) :
    endedEvent s =
      ((skipToNext { (markAsCompleted s).1 with
          currentEpisodeIndex := some (cur + 1 - 1) }).1,
       (markAsCompleted s).2 ++
         (skipToNext { (markAsCompleted s).1 with
           currentEpisodeIndex := some (cur + 1 - 1) }).2) := by
  simp only [endedEvent, hix1, if_pos hc, hget]

theorem endedEvent_spec_stop {s : PlayerState} {cur : ℤ}
    (hix1 : (markAsCompleted s).1.currentEpisodeIndex = some cur)
    (hc : ¬(0 < (markAsCompleted s).1.playlist.length ∧
      cur < ((markAsCompleted s).1.playlist.length : ℤ) - 1)) :
    endedEvent s =
      ({ (markAsCompleted s).1 with isPlaying := false }, (markAsCompleted s).2) := by
  simp only [endedEvent, hix1, if_neg hc]

/-- C2: with queue `[A, B]`, cursor 0, playing, the `ended` listener adds
`A`'s identity to the completion map and persists it, advances the cursor
to 1, keeps playing, resets `positionSeconds` to 0 and instructs the
engine to load `B`'s media at position 0 with autoplay; with no next
entry the listener stops playback (`isPlaying = false`). -/
theorem claimC2_ended_autoadvance :
    (∀ (A B : PlayerEpisode) (s : PlayerState),
      s.playlist = [some A, some B] → s.currentEpisodeIndex = some 0 →
      s.currentEpisode = some A → s.isPlaying = true → B.episode.file ≠ "" →
      (endedEvent s).1.completedEpisodes
        (getEpisodeKey A.showId A.seasonNumber A.episode.episode) = true ∧
      Effect.write "codecast_completed_episodes" ∈ (endedEvent s).2 ∧
      (endedEvent s).1.currentEpisodeIndex = some 1 ∧
      (endedEvent s).1.isPlaying = true ∧
      (endedEvent s).1.currentTime = 0 ∧
      Effect.load B.episode.file 0 true ∈ (endedEvent s).2) ∧
    (∀ (A' : PlayerEpisode) (s' : PlayerState),
      s'.playlist = [some A'] → s'.currentEpisodeIndex = some 0 →
      (endedEvent s').1.isPlaying = false) := by
  constructor
  · intro A B s hpl hix hce hplay hb
    have hmc := markAsCompleted_spec hce
    have h1pl : (markAsCompleted s).1.playlist = [some A, some B] := by
      rw [hmc]
      exact hpl
    have h1ix : (markAsCompleted s).1.currentEpisodeIndex = some 0 := by
      rw [hmc]
      exact hix
    have h1eff : (markAsCompleted s).2 = [Effect.write "codecast_completed_episodes"] := by
      rw [hmc]
    have hget : jsGet (markAsCompleted s).1.playlist (0 + 1) = some (some B) := by
      rw [h1pl]
      rfl
    have hE := endedEvent_spec_adv h1ix
      (by rw [h1pl]; constructor <;> norm_num) hget
    have hs2pl : ({ (markAsCompleted s).1 with
        currentEpisodeIndex := some (0 + 1 - 1) } : PlayerState).playlist =
          [some A, some B] := h1pl
    have hixs2 : ({ (markAsCompleted s).1 with
        currentEpisodeIndex := some (0 + 1 - 1) } : PlayerState).currentEpisodeIndex =
          some (0 + 1 - 1) := rfl
    have hS := skipToNext_spec_adv (by rw [hs2pl]; norm_num) hixs2
      (by rw [hs2pl]; norm_num)
    have hget2 : jsGet ({ (markAsCompleted s).1 with
        currentEpisodeIndex := some (0 + 1 - 1) } : PlayerState).playlist
          (0 + 1 - 1 + 1) = some (some B) := by
      rw [hs2pl]
      rfl
    refine ⟨?_, ?_, ?_, ?_, ?_, ?_⟩
    · rw [hE, hS]
      show ({ (markAsCompleted s).1 with
        currentEpisodeIndex := some (0 + 1 - 1) } : PlayerState).completedEpisodes
          (getEpisodeKey A.showId A.seasonNumber A.episode.episode) = true
      rw [show ({ (markAsCompleted s).1 with
        currentEpisodeIndex := some (0 + 1 - 1) } : PlayerState).completedEpisodes =
          (markAsCompleted s).1.completedEpisodes from rfl, hmc]
      simp
    · rw [hE, h1eff]
      simp
    · rw [hE, hS]
      norm_num
    · rw [hE, hS]
    · rw [hE, hS]
    · rw [hE, hS, h1eff, hget2]
      simp [loadIfFile, hb]
  · intro A' s' hpl hix
    obtain ⟨hp, hi, -, -⟩ := markAsCompleted_fields s'
    have h1ix : (markAsCompleted s').1.currentEpisodeIndex = some 0 := by
      rw [hi]
      exact hix
    have h1pl : (markAsCompleted s').1.playlist = [some A'] := by
      rw [hp]
      exact hpl
    rw [endedEvent_spec_stop h1ix (by rw [h1pl]; norm_num)]

/-- C2, witness: the scenario at the concrete queue `[itemA, itemB]` and
the single-entry queue `[itemA]`. -/
theorem claimC2_witness :
    ((endedEvent sAB).1.completedEpisodes
        (getEpisodeKey itemA.showId itemA.seasonNumber itemA.episode.episode) = true ∧
      Effect.write "codecast_completed_episodes" ∈ (endedEvent sAB).2 ∧
      (endedEvent sAB).1.currentEpisodeIndex = some 1 ∧
      (endedEvent sAB).1.isPlaying = true ∧
      (endedEvent sAB).1.currentTime = 0 ∧
      Effect.load itemB.episode.file 0 true ∈ (endedEvent sAB).2) ∧
    (endedEvent { sNoCur with currentEpisodeIndex := some 0 }).1.isPlaying = false :=
  ⟨claimC2_ended_autoadvance.1 itemA itemB sAB rfl rfl rfl rfl (by decide),
   claimC2_ended_autoadvance.2 itemA _ rfl rfl⟩

end Codecast
